import Mathlib

/-!
# mp3meta: the field-mapping layer of `ParseMP3`

A shallow embedding of `src/mp3_decoder.go` (package `mp3meta`).  Go strings are
Lean `String`s, Go `int` is `Int` together with the 64-bit range check that
`strconv.Atoi` performs, and `(*MP3Tag, error)` is `Except GoError MP3Tag`.

The collaborators that live outside the repository are parameters:

* `ParseReader` – `id3v2.ParseReader(r, Options{Parse: true})`;
* `imageDecode` – `image.Decode(bytes.NewReader(b))`;
* `mp3TextFrames` – the package table from field name to frame identifier.

`regexp.Split` and `strconv.Atoi` are standard-library functions; they are
embedded for the one pattern and the one base the decoder uses.
-/

namespace Mp3meta

/-! ## Standard library: `strconv` -/

/-- The two sentinel errors of package `strconv`. -/
inductive StrconvErr where
  | ErrSyntax
  | ErrRange
deriving DecidableEq, Repr

/-- Go `strconv.NumError`. -/
structure NumError where
  Func : String
  Num : String
  Err : StrconvErr
deriving DecidableEq, Repr

/-- The values of Go's `error` interface that `ParseMP3` can return. -/
inductive GoError where
  | errorString (s : String)
  | numError (e : NumError)
deriving DecidableEq, Repr

/-- Largest value of Go `int` on a 64-bit target (`strconv.IntSize = 64`). -/
def maxInt : Int := 9223372036854775807

/-- Smallest value of Go `int` on a 64-bit target. -/
def minInt : Int := -9223372036854775808

/-- Value of a run of ASCII digits, most significant first
(`n = n*10 + int(ch - '0')` in `strconv.Atoi`). -/
def digitsValue (ds : List Char) : Nat :=
  ds.foldl (fun n ch => n * 10 + (ch.toNat - 48)) 0

/-- Go `strconv.Atoi`: an optional sign, then one or more ASCII digits, the
value within the range of `int`.  Anything else is a `*NumError` with function
name `"Atoi"` and the original text; `ErrSyntax` for a malformed text,
`ErrRange` for a value out of range. -/
def Atoi (s : String) : Except NumError Int :=
  let signed : Bool × List Char :=
    match s.data with
    | '-' :: rest => (true, rest)
    | '+' :: rest => (false, rest)
    | cs => (false, cs)
  if signed.2 = [] then
    .error ⟨"Atoi", s, .ErrSyntax⟩
  else if signed.2.all Char.isDigit = false then
    .error ⟨"Atoi", s, .ErrSyntax⟩
  else
    let n : Int := if signed.1 then -(digitsValue signed.2 : Int) else (digitsValue signed.2 : Int)
    if n < minInt ∨ maxInt < n then
      .error ⟨"Atoi", s, .ErrRange⟩
    else
      .ok n

/-! ## Standard library: `regexp` -/

/-- The scan behind `regexp.MustCompile("[^0-9]+").Split(s, -1)`.  `cur` holds
the piece being read (reversed) and `inSep` tells whether the previous
character belonged to a match of `[^0-9]+`.  A digit extends the current piece;
the first non-digit after a piece closes it; further non-digits extend the same
match.  The text after the last match is always emitted, also when empty. -/
def splitRuns : Bool → List Char → List Char → List String
  | _, cur, [] => [String.mk cur.reverse]
  | inSep, cur, c :: cs =>
    if c.isDigit then splitRuns false (c :: cur) cs
    else if inSep then splitRuns true cur cs
    else String.mk cur.reverse :: splitRuns true [] cs

/-- Go `re.Split(s, -1)` for `re = regexp.MustCompile("[^0-9]+")`: the
substrings of `s` between the maximal runs of non-digit characters.  A run at
the start or the end of `s` contributes an empty first or last piece; the empty
string splits into one empty piece. -/
def reSplit (s : String) : List String :=
  splitRuns false [] s.data

/-! ## The tag library (`github.com/bogem/id3v2/v2`) -/

/-- Library type `id3v2.TextFrame`, of which the decoder reads `Text`. -/
structure TextFrame where
  Text : String
deriving DecidableEq, Repr

/-- Library type `id3v2.PictureFrame`, of which the decoder reads `Picture`. -/
structure PictureFrame where
  Picture : List UInt8
deriving DecidableEq, Repr

/-- A parsed `*id3v2.Tag` as the decoder observes it: its text frames by
identifier, in tag order, and the frames stored under `"APIC"`, which the
library delivers as `PictureFrame`s. -/
structure Tag where
  textFrames : List (String × TextFrame)
  pictures : List PictureFrame
deriving DecidableEq, Repr

/-- Library method `tag.GetTextFrame(id)`: the last text frame with the
identifier, the zero `TextFrame{}` when there is none. -/
def Tag.GetTextFrame (tag : Tag) (id : String) : TextFrame :=
  match tag.textFrames.reverse.find? (fun f => f.1 == id) with
  | some f => f.2
  | none => ⟨""⟩

/-! ## The record -/

/-- The `MP3Tag` record as `ParseMP3` uses it.  The struct is declared in another
file of the package than `mp3_decoder.go`; the decoder
addresses its string fields by name (`reflect` `FieldByName(k).SetString`), so
they are kept as a map from field name to value, and it names four integer
fields, the cover art and the reader directly. -/
structure MP3Tag (Image Reader : Type) where
  strings : String → String
  DiscNumber : Int
  DiscTotal : Int
  TrackNumber : Int
  TrackTotal : Int
  CoverArt : Option Image
  reader : Option Reader

variable {Image Reader LibErr DecErr : Type}

/-- The zero value `MP3Tag{}`. -/
def MP3Tag.zero : MP3Tag Image Reader :=
  { strings := fun _ => "", DiscNumber := 0, DiscTotal := 0, TrackNumber := 0,
    TrackTotal := 0, CoverArt := none, reader := none }

/-- Field `DiscNumberString`. -/
def MP3Tag.DiscNumberString (t : MP3Tag Image Reader) : String :=
  t.strings "DiscNumberString"

/-- Field `TrackNumberString`. -/
def MP3Tag.TrackNumberString (t : MP3Tag Image Reader) : String :=
  t.strings "TrackNumberString"

/-- The effect of `rtPtr.FieldByName(k).SetString(text)`. -/
def MP3Tag.setString (t : MP3Tag Image Reader) (k text : String) : MP3Tag Image Reader :=
  { t with strings := fun name => if name = k then text else t.strings name }

/-! ## `ParseMP3` -/

/-- Lines 23-29: the loop over `mp3TextFrames`, one step per table entry; a
frame with empty text is skipped. -/
def copyTextFrames (mp3TextFrames : List (String × String)) (tag : Tag)
    (resultTag : MP3Tag Image Reader) : MP3Tag Image Reader :=
  mp3TextFrames.foldl
    (fun rt kv =>
      let framer := tag.GetTextFrame kv.2
      if framer.Text = "" then rt else rt.setString kv.1 framer.Text)
    resultTag

/-- Lines 30-35: the first `"APIC"` frame, decoded; a decode error leaves
`CoverArt` as it is.  `tag.pictures` is `tag.GetFrames("APIC")`. -/
def decodeCoverArt (imageDecode : List UInt8 → Except DecErr (Image × String)) (tag : Tag)
    (resultTag : MP3Tag Image Reader) : MP3Tag Image Reader :=
  match tag.pictures with
  | pic :: _ =>
    match imageDecode pic.Picture with
    | .ok (img, _) => { resultTag with CoverArt := some img }
    | .error _ => resultTag
  | [] => resultTag

/-- Lines 40-52: the `DiscNumberString` block.  `result[0]` and `result[1]` are
`result.getD 0 ""` and `result.getD 1 ""`: the split never returns an empty
slice (`reSplit_ne_nil`) and `result[1]` is read only when `len(result) == 2`,
so both indices are in range. -/
def parseDiscNumber (resultTag : MP3Tag Image Reader) : Except GoError (MP3Tag Image Reader) :=
  if resultTag.DiscNumberString ≠ "" then
    let result := reSplit resultTag.DiscNumberString
    let afterTotal : Except GoError (MP3Tag Image Reader) :=
      if result.length = 2 then
        match Atoi (result.getD 1 "") with
        | .error err => .error (.numError err)
        | .ok v => .ok { resultTag with DiscTotal := v }
      else .ok resultTag
    match afterTotal with
    | .error err => .error err
    | .ok resultTag =>
      match Atoi (result.getD 0 "") with
      | .error err => .error (.numError err)
      | .ok v => .ok { resultTag with DiscNumber := v }
  else .ok resultTag

/-- Lines 53-65: the `TrackNumberString` block, the same statements on the
track fields. -/
def parseTrackNumber (resultTag : MP3Tag Image Reader) : Except GoError (MP3Tag Image Reader) :=
  if resultTag.TrackNumberString ≠ "" then
    let result := reSplit resultTag.TrackNumberString
    let afterTotal : Except GoError (MP3Tag Image Reader) :=
      if result.length = 2 then
        match Atoi (result.getD 1 "") with
        | .error err => .error (.numError err)
        | .ok v => .ok { resultTag with TrackTotal := v }
      else .ok resultTag
    match afterTotal with
    | .error err => .error err
    | .ok resultTag =>
      match Atoi (result.getD 0 "") with
      | .error err => .error (.numError err)
      | .ok v => .ok { resultTag with TrackNumber := v }
  else .ok resultTag

/-- `ParseMP3(r)`: `Except.error` is the Go result `(nil, err)`, `Except.ok`
is `(&resultTag, nil)`. -/
def ParseMP3 (ParseReader : Reader → Except LibErr Tag)
    (imageDecode : List UInt8 → Except DecErr (Image × String))
    (mp3TextFrames : List (String × String)) (r : Reader) :
    Except GoError (MP3Tag Image Reader) :=
  let resultTag : MP3Tag Image Reader :=
    { (MP3Tag.zero : MP3Tag Image Reader) with reader := some r }
  match ParseReader r with
  | .error _ => .error (.errorString "error parsing mp3")
  | .ok tag =>
    let resultTag := copyTextFrames mp3TextFrames tag resultTag
    let resultTag := decodeCoverArt imageDecode tag resultTag
    match parseDiscNumber resultTag with
    | .error err => .error err
    | .ok resultTag => parseTrackNumber resultTag

/-- The record once lines 16-35 have run on a parsed tag: the text frames of
the table copied, the cover art decoded. -/
def afterFrames (imageDecode : List UInt8 → Except DecErr (Image × String))
    (mp3TextFrames : List (String × String)) (tag : Tag) (r : Reader) : MP3Tag Image Reader :=
  decodeCoverArt imageDecode tag
    (copyTextFrames mp3TextFrames tag { (MP3Tag.zero : MP3Tag Image Reader) with reader := some r })

/-- What either number block of `ParseMP3` (lines 40-52, 53-65) computes from
the source string and the current values of the primary number and the total;
`parseDiscNumber_eq` and `parseTrackNumber_eq` relate it to the two blocks. -/
def numberBlock (s : String) (number total : Int) : Except GoError (Int × Int) :=
  if s ≠ "" then
    let result := reSplit s
    let afterTotal : Except GoError Int :=
      if result.length = 2 then
        match Atoi (result.getD 1 "") with
        | .error err => .error (.numError err)
        | .ok v => .ok v
      else .ok total
    match afterTotal with
    | .error err => .error err
    | .ok total =>
      match Atoi (result.getD 0 "") with
      | .error err => .error (.numError err)
      | .ok v => .ok (v, total)
  else .ok (number, total)

/-! ## Shapes of composite number strings -/

/-- Every character is an ASCII digit. -/
def IsDigits (s : String) : Prop := ∀ c ∈ s.data, c.isDigit = true

/-- A non-empty run of non-digit characters. -/
def IsSep (s : String) : Prop := s ≠ "" ∧ ∀ c ∈ s.data, c.isDigit = false

instance (s : String) : Decidable (IsDigits s) := by unfold IsDigits; infer_instance

instance (s : String) : Decidable (IsSep s) := by unfold IsSep; infer_instance

/-- The decimal value of a run of digits, as a Go `int`. -/
def value (s : String) : Int := (digitsValue s.data : Int)

/-- A non-empty run of ASCII digits whose value fits a Go `int`. -/
def IsNumber (s : String) : Prop := s ≠ "" ∧ IsDigits s ∧ value s ≤ maxInt

instance (s : String) : Decidable (IsNumber s) := by unfold IsNumber; infer_instance

/-- Two non-empty runs of ASCII digits around one non-empty run of non-digits. -/
def TwoRuns (s : String) : Prop :=
  ∃ N sep M : String, s = N ++ sep ++ M ∧ N ≠ "" ∧ IsDigits N ∧ IsSep sep ∧ M ≠ "" ∧ IsDigits M

/-- A well-formed disc or track number: a number, or a number, a separator and
a number (`"7"`, `"7/14"`). -/
def WellFormed (s : String) : Prop :=
  IsNumber s ∨ ∃ N sep M : String, s = N ++ sep ++ M ∧ IsNumber N ∧ IsSep sep ∧ IsNumber M

/-- The text starts with a character that is not an ASCII digit. -/
def StartsNonDigit (s : String) : Prop :=
  ∃ c cs, s.data = c :: cs ∧ c.isDigit = false

/-- `result[0]` of the split. -/
def firstPiece (s : String) : String := (reSplit s).getD 0 ""

/-- `result[1]` of the split. -/
def secondPiece (s : String) : String := (reSplit s).getD 1 ""

/-- The strings either number block accepts: the empty string, which skips the
block, or a first piece that is a number and, when the split has exactly two
pieces, a second piece that is a number. -/
def Accepted (s : String) : Prop :=
  s = "" ∨ (IsNumber (firstPiece s) ∧ ((reSplit s).length = 2 → IsNumber (secondPiece s)))

instance (s : String) : Decidable (Accepted s) := by unfold Accepted; infer_instance

/-! ## The save path

`Save`/`SaveMP3`, `ClearAllTags` and the accessors are declared in other files
of the package than `mp3_decoder.go`; `mp3_test.go` calls them.  The
definitions below follow the specification (§4.2-§4.4).  `strconv.Itoa` is
the standard-library inverse of `Atoi`. -/

/-- The ASCII digit of `d < 10` (`'0' + d`). -/
def digitChar (d : Nat) : Char := Char.ofNat (48 + d)

/-- The decimal digits of `n` in front of `acc`, the least significant digit
produced first, as in `strconv`'s `formatBits`; `fuel` bounds the number of
digits. -/
def formatDigits : Nat → Nat → List Char → List Char
  | 0, _, acc => acc
  | fuel + 1, n, acc =>
    if n < 10 then digitChar n :: acc
    else formatDigits fuel (n / 10) (digitChar (n % 10) :: acc)

/-- Go `strconv.Itoa`: the decimal text of an `int`, with a leading `-` for a
negative value. -/
def Itoa (i : Int) : String :=
  if i < 0 then String.mk ('-' :: formatDigits (i.natAbs + 1) i.natAbs [])
  else String.mk (formatDigits (i.natAbs + 1) i.natAbs [])

/-- Modelled from the spec: `ClearAllTags()` (§4.3), which is declared outside
`mp3_decoder.go`.  It "resets every modeled field to its zero value (empty
string / zero integer) and clears the cover-art reference, leaving the
underlying byte source reference untouched". -/
def MP3Tag.ClearAllTags (t : MP3Tag Image Reader) : MP3Tag Image Reader :=
  { (MP3Tag.zero : MP3Tag Image Reader) with reader := t.reader }

/-- Modelled from the spec: the setter `SetDiscNumber` (§4.2), which is
declared outside `mp3_decoder.go`: it "overwrites the in-memory value
unconditionally". -/
def MP3Tag.SetDiscNumber (t : MP3Tag Image Reader) (n : Int) : MP3Tag Image Reader :=
  { t with DiscNumber := n }

/-- Modelled from the spec: the setter `SetDiscTotal` (§4.2), which is
declared outside `mp3_decoder.go`. -/
def MP3Tag.SetDiscTotal (t : MP3Tag Image Reader) (n : Int) : MP3Tag Image Reader :=
  { t with DiscTotal := n }

/-- Modelled from the spec: the setter `SetTrackNumber` (§4.2), which is
declared outside `mp3_decoder.go`. -/
def MP3Tag.SetTrackNumber (t : MP3Tag Image Reader) (n : Int) : MP3Tag Image Reader :=
  { t with TrackNumber := n }

/-- Modelled from the spec: the setter `SetTrackTotal` (§4.2), which is
declared outside `mp3_decoder.go`. -/
def MP3Tag.SetTrackTotal (t : MP3Tag Image Reader) (n : Int) : MP3Tag Image Reader :=
  { t with TrackTotal := n }

/-- Modelled from the spec: the setter of a string field such as `SetArtist`
(§4.2), which is declared outside `mp3_decoder.go`; `k` is the name of the
field. -/
def MP3Tag.SetText (t : MP3Tag Image Reader) (k text : String) : MP3Tag Image Reader :=
  t.setString k text

/-- Modelled from the spec: the combined text `Save` writes for a composite
field (§4.4), `Save` being declared outside `mp3_decoder.go`: the "N/M"-style
form "when both primary and total are set (otherwise just the primary, or
omitted if zero)".  A field is set when it is not at its zero value; the omitted frame
is the empty text. -/
def compositeString (number total : Int) : String :=
  if number ≠ 0 ∧ total ≠ 0 then Itoa number ++ "/" ++ Itoa total
  else if number ≠ 0 then Itoa number
  else ""

/-- Modelled from the spec: the text `Save` writes for the table entry of field
`k` (§4.4), `Save` being declared outside `mp3_decoder.go`: the re-encoded
composite for the two number strings, the field's value for every other
field. -/
def savedText (t : MP3Tag Image Reader) (k : String) : String :=
  if k = "DiscNumberString" then compositeString t.DiscNumber t.DiscTotal
  else if k = "TrackNumberString" then compositeString t.TrackNumber t.TrackTotal
  else t.strings k

/-- Modelled from the spec: the tag `Save` hands to the tag writer (§4.4),
`Save` being declared outside `mp3_decoder.go`: one text frame per table entry
whose text is not empty (a field at its zero value does not reappear) and the
cover art, if present, re-encoded as a single picture frame. -/
def saveTag (imageEncode : Image → List UInt8) (mp3TextFrames : List (String × String))
    (t : MP3Tag Image Reader) : Tag :=
  { textFrames := mp3TextFrames.filterMap
      (fun kv => if savedText t kv.1 = "" then none else some (kv.2, ⟨savedText t kv.1⟩)),
    pictures :=
      match t.CoverArt with
      | some img => [⟨imageEncode img⟩]
      | none => [] }

/-- A primary number and a total that the combined text can carry back: both
within `0 .. maxInt`, and no total without a primary number. -/
def Storable (number total : Int) : Prop :=
  0 ≤ number ∧ number ≤ maxInt ∧ 0 ≤ total ∧ total ≤ maxInt ∧ (number = 0 → total = 0)

instance (number total : Int) : Decidable (Storable number total) := by
  unfold Storable; infer_instance

/-- A call `Save` makes on one of its two streams: `Seek(0, io.SeekStart)` or
`Read` on the original source, `Write` on the destination. -/
inductive StreamCall where
  | seekStart
  | read
  | write
deriving DecidableEq, Repr

/-- The two streams as `Save` observes them: the error returned by the n-th
`Seek`, the n-th `Read` and the n-th `Write` (counted from 0), `none` for a nil
error. -/
structure Streams where
  seek : Nat → Option String
  read : Nat → Option String
  write : Nat → Option String

/-- How many calls of each kind have been made. -/
structure Counters where
  seeks : Nat
  reads : Nat
  writes : Nat
deriving DecidableEq, Repr

/-- The error the next call of the given kind returns. -/
def Streams.outcome (env : Streams) (c : Counters) : StreamCall → Option String
  | .seekStart => env.seek c.seeks
  | .read => env.read c.reads
  | .write => env.write c.writes

/-- The counters after one more call of the given kind. -/
def Counters.advance (c : Counters) : StreamCall → Counters
  | .seekStart => { c with seeks := c.seeks + 1 }
  | .read => { c with reads := c.reads + 1 }
  | .write => { c with writes := c.writes + 1 }

/-- Modelled from the spec: the rewrite of `Save` (§4.4, §7), `Save` being
declared outside `mp3_decoder.go`.  `calls` are the stream calls of a run in
which nothing fails; the first failing call ends the run and its error is the
result ("all surfaced as failures with no partial recovery", "nothing is
retried"). -/
def rewrite (env : Streams) : List StreamCall → Counters → Except GoError Unit
  | [], _ => .ok ()
  | call :: rest, c =>
    match env.outcome c call with
    | some cause => .error (.errorString cause)
    | none => rewrite env rest (c.advance call)

/-- The calls a rewrite makes, each with the error it returned. -/
def callsMade (env : Streams) : List StreamCall → Counters → List (StreamCall × Option String)
  | [], _ => []
  | call :: rest, c =>
    match env.outcome c call with
    | some cause => [(call, some cause)]
    | none => (call, none) :: callsMade env rest (c.advance call)

/-- Modelled from the spec: `SaveMP3(tag, w)` (§4.4), which is declared
outside `mp3_decoder.go`.  It seeks the original source to its start and
delegates the rewrite to the tag writer, which gets the tag of `saveTag` and
answers with its calls on the source and the destination (`tagWriter`). -/
def SaveMP3 (tagWriter : Tag → List StreamCall) (imageEncode : Image → List UInt8)
    (mp3TextFrames : List (String × String)) (t : MP3Tag Image Reader) (env : Streams) :
    Except GoError Unit :=
  rewrite env (.seekStart :: tagWriter (saveTag imageEncode mp3TextFrames t)) ⟨0, 0, 0⟩

/-- The stream calls of `SaveMP3`, each with the error it returned. -/
def SaveMP3Calls (tagWriter : Tag → List StreamCall) (imageEncode : Image → List UInt8)
    (mp3TextFrames : List (String × String)) (t : MP3Tag Image Reader) (env : Streams) :
    List (StreamCall × Option String) :=
  callsMade env (.seekStart :: tagWriter (saveTag imageEncode mp3TextFrames t)) ⟨0, 0, 0⟩

/-- A tag library that reads back the very tag that was written: the buffer of
a save is represented by the tag it holds. -/
def readsBack : Tag → Except String Tag := fun tag => .ok tag

/-- An image encoder for the concrete examples. -/
def sampleEncode : Nat → List UInt8 := fun _ => [1]

/-- A tag writer for the concrete examples: it reads the source twice, seeks
back to its start and writes twice. -/
def sampleWriter : Tag → List StreamCall :=
  fun _ => [.read, .read, .seekStart, .write, .write]

/-- Streams on which every call succeeds. -/
def healthyStreams : Streams :=
  { seek := fun _ => none, read := fun _ => none, write := fun _ => none }

/-- Modelled from the spec: the getter of a string field such as `GetArtist`
(§4.2), which is declared outside `mp3_decoder.go`: it "returns current
value"; `k` is the name of the field. -/
def MP3Tag.GetText (t : MP3Tag Image Reader) (k : String) : String :=
  t.strings k

/-- Modelled from the spec: the getter `GetDiscNumber` (§4.2), which is
declared outside `mp3_decoder.go`. -/
def MP3Tag.GetDiscNumber (t : MP3Tag Image Reader) : Int := t.DiscNumber

/-- Modelled from the spec: the getter `GetDiscTotal` (§4.2), which is
declared outside `mp3_decoder.go`. -/
def MP3Tag.GetDiscTotal (t : MP3Tag Image Reader) : Int := t.DiscTotal

/-- Modelled from the spec: the getter `GetTrackNumber` (§4.2), which is
declared outside `mp3_decoder.go`. -/
def MP3Tag.GetTrackNumber (t : MP3Tag Image Reader) : Int := t.TrackNumber

/-- Modelled from the spec: the getter `GetTrackTotal` (§4.2), which is
declared outside `mp3_decoder.go`. -/
def MP3Tag.GetTrackTotal (t : MP3Tag Image Reader) : Int := t.TrackTotal

/-- Modelled from the spec: the getter of an integer field that comes from a
text frame, such as `GetBPM` and `GetYear` (§3, §4.2), which is declared
outside `mp3_decoder.go`.  `ParseMP3` fills the fields of the table with
`SetString` (line 28), so the record holds the frame's text and the getter
returns its integer, the "zero-value if unset" or not a number. -/
def MP3Tag.GetInt (t : MP3Tag Image Reader) (k : String) : Int :=
  match Atoi (t.strings k) with
  | .ok v => v
  | .error _ => 0

/-- Modelled from the spec: the setter of an integer field that comes from a
text frame, such as `SetBPM` and `SetYear` (§3, §4.2), which is declared
outside `mp3_decoder.go`: it overwrites the field with the text of the
integer. -/
def MP3Tag.SetInt (t : MP3Tag Image Reader) (k : String) (n : Int) : MP3Tag Image Reader :=
  t.setString k (Itoa n)

/-- Modelled from the spec: `GetBPM` (§4.2), on field `BPM`. -/
def MP3Tag.GetBPM (t : MP3Tag Image Reader) : Int := t.GetInt "BPM"

/-- Modelled from the spec: `SetBPM` (§4.2), on field `BPM`. -/
def MP3Tag.SetBPM (t : MP3Tag Image Reader) (n : Int) : MP3Tag Image Reader := t.SetInt "BPM" n

/-- Modelled from the spec: `GetYear` (§4.2), on field `Year`. -/
def MP3Tag.GetYear (t : MP3Tag Image Reader) : Int := t.GetInt "Year"

/-- Modelled from the spec: `SetYear` (§4.2), on field `Year`. -/
def MP3Tag.SetYear (t : MP3Tag Image Reader) (n : Int) : MP3Tag Image Reader := t.SetInt "Year" n

/-- The streams of a save from a `bytes.Reader` into a `bytes.Buffer`, as in
`TestMP3`: no call on either of them returns an error. -/
def bufferStreams : Streams :=
  { seek := fun _ => none, read := fun _ => none, write := fun _ => none }

/-- Modelled from the spec: `tag.Save(w)` for a buffer `w` (§4.4), which is
declared outside `mp3_decoder.go`.  The save is `SaveMP3` on streams that do
not fail; on success the result is the buffer reopened for reading
(`bytes.NewReader(buffy.Bytes())`), which holds what the tag writer wrote for
the tag of `saveTag` (`written`). -/
def MP3Tag.Save (t : MP3Tag Image Reader) (tagWriter : Tag → List StreamCall)
    (written : Tag → Reader) (imageEncode : Image → List UInt8)
    (mp3TextFrames : List (String × String)) : Except GoError Reader :=
  match SaveMP3 tagWriter imageEncode mp3TextFrames t bufferStreams with
  | .error err => .error err
  | .ok _ => .ok (written (saveTag imageEncode mp3TextFrames t))

/-! ## Concrete inputs -/

/-- A table of the shape of `mp3TextFrames`, with the ID3v2 identifiers of the
fields it names; the concrete examples run on it. -/
def sampleTextFrames : List (String × String) :=
  [("Artist", "TPE1"), ("Album", "TALB"), ("Title", "TIT2"),
   ("DiscNumberString", "TPOS"), ("TrackNumberString", "TRCK")]

/-- A tag library that parses every source to the given tag. -/
def parsesTo (tag : Tag) : Unit → Except String Tag := fun _ => .ok tag

/-- A tag library that fails on every source with the given cause. -/
def failsWith (cause : String) : Unit → Except String Tag := fun _ => .error cause

/-- An image decoder that recognises the payload `[1]` alone. -/
def sampleDecode : List UInt8 → Except String (Nat × String) :=
  fun b => if b = [1] then .ok (1, "png") else .error "image: unknown format"

/-- A tag with an artist, disc `1/2`, track `7/14` and two pictures, the first
of which does not decode. -/
def sampleTag : Tag :=
  { textFrames := [("TPE1", ⟨"TestArtist1"⟩), ("TPOS", ⟨"1/2"⟩), ("TRCK", ⟨"7/14"⟩)],
    pictures := [⟨[0]⟩, ⟨[1]⟩] }

/-- A table of the shape of `mp3TextFrames` with the fields that
`TestWriteTagsMP3FromEmpty` sets, under their ID3v2 identifiers. -/
def testTextFrames : List (String × String) :=
  [("Artist", "TPE1"), ("AlbumArtist", "TPE2"), ("Album", "TALB"), ("BPM", "TBPM"),
   ("Composer", "TCOM"), ("Copyright", "TCOP"), ("Date", "TDAT"), ("Encoder", "TENC"),
   ("Genre", "TCON"), ("ISRC", "TSRC"), ("Language", "TLAN"), ("Length", "TLEN"),
   ("Lyricist", "TEXT"), ("Publisher", "TPUB"), ("SubTitle", "TIT3"), ("Title", "TIT2"),
   ("Year", "TYER"), ("DiscNumberString", "TPOS"), ("TrackNumberString", "TRCK")]

/-- The record that `TestWriteTagsMP3FromEmpty` builds with the setters, on a
cleared record. -/
def testRecord : MP3Tag Nat Tag :=
  (((((((((MP3Tag.zero : MP3Tag Nat Tag).SetText "Artist" "TestArtist1").SetText "Album"
    "TestAlbum1").SetBPM 115).SetDiscNumber 1).SetDiscTotal 2).SetTrackNumber 7).SetTrackTotal
    14).SetYear 2008).SetText "Title" "TestTitle1"

/-! ## Lemmas on the split and the conversion -/

theorem splitRuns_digits (ds : List Char) (hds : ∀ c ∈ ds, c.isDigit = true) (cur rest : List Char) :
    splitRuns false cur (ds ++ rest) = splitRuns false (ds.reverse ++ cur) rest := by
  induction ds generalizing cur with
  | nil => simp
  | cons d ds ih =>
    have hd : d.isDigit = true := hds d (by simp)
    have := ih (fun c hc => hds c (by simp [hc])) (d :: cur)
    simp [splitRuns, hd, this]

theorem splitRuns_true_nondigits (ns : List Char) (hns : ∀ c ∈ ns, c.isDigit = false)
    (cur rest : List Char) :
    splitRuns true cur (ns ++ rest) = splitRuns true cur rest := by
  induction ns with
  | nil => simp
  | cons n ns ih =>
    have hn : n.isDigit = false := hns n (by simp)
    simp [splitRuns, hn, ih (fun c hc => hns c (by simp [hc]))]

theorem splitRuns_false_nondigits (ns : List Char) (hne : ns ≠ [])
    (hns : ∀ c ∈ ns, c.isDigit = false) (cur rest : List Char) :
    splitRuns false cur (ns ++ rest) = String.mk cur.reverse :: splitRuns true [] rest := by
  cases ns with
  | nil => exact absurd rfl hne
  | cons n ns =>
    have hn : n.isDigit = false := hns n (by simp)
    simp [splitRuns, hn, splitRuns_true_nondigits ns (fun c hc => hns c (by simp [hc]))]

theorem splitRuns_all_digits (ds : List Char) (hds : ∀ c ∈ ds, c.isDigit = true) (b : Bool)
    (cur : List Char) :
    splitRuns b cur ds = [String.mk (cur.reverse ++ ds)] := by
  induction ds generalizing b cur with
  | nil => simp [splitRuns]
  | cons d ds ih =>
    have hd : d.isDigit = true := hds d (by simp)
    simp [splitRuns, hd, ih (fun c hc => hds c (by simp [hc]))]

theorem reSplit_two (N sep M : String) (hN : IsDigits N) (hs : IsSep sep) (hM : IsDigits M) :
    reSplit (N ++ sep ++ M) = [N, M] := by
  have hne : sep.data ≠ [] := by
    intro h; apply hs.1; cases sep; simp_all
  simp only [reSplit, String.data_append, List.append_assoc]
  rw [splitRuns_digits N.data hN, splitRuns_false_nondigits sep.data hne hs.2,
    splitRuns_all_digits M.data hM]
  simp

theorem splitRuns_ne_nil (b : Bool) (cur s : List Char) : splitRuns b cur s ≠ [] := by
  induction s generalizing b cur with
  | nil => simp [splitRuns]
  | cons c cs ih =>
    unfold splitRuns
    split_ifs
    · exact ih _ _
    · exact ih _ _
    · simp

theorem splitRuns_length_one (s cur : List Char) (h : (splitRuns false cur s).length = 1) :
    ∀ c ∈ s, c.isDigit = true := by
  induction s generalizing cur with
  | nil => simp
  | cons c cs ih =>
    unfold splitRuns at h
    by_cases hc : c.isDigit = true
    · simp only [hc, if_true] at h
      intro x hx
      rcases List.mem_cons.mp hx with rfl | hx
      · exact hc
      · exact ih _ h x hx
    · simp only [hc, if_false] at h
      have := splitRuns_ne_nil true [] cs
      cases hsp : splitRuns true [] cs with
      | nil => exact absurd hsp this
      | cons p ps => simp [hsp] at h

theorem splitRuns_true_one (s : List Char) (b : String) (h : splitRuns true [] s = [b]) :
    ∃ n m, s = n ++ m ∧ (∀ c ∈ n, c.isDigit = false) ∧ (∀ c ∈ m, c.isDigit = true) ∧
      b = String.mk m := by
  induction s with
  | nil =>
    refine ⟨[], [], rfl, by simp, by simp, ?_⟩
    simpa [splitRuns] using h.symm
  | cons c cs ih =>
    unfold splitRuns at h
    by_cases hc : c.isDigit = true
    · simp only [hc, if_true] at h
      have hall := splitRuns_length_one cs [c] (by rw [h]; rfl)
      rw [splitRuns_all_digits cs hall] at h
      refine ⟨[], c :: cs, rfl, by simp, ?_, ?_⟩
      · intro x hx
        rcases List.mem_cons.mp hx with rfl | hx
        · exact hc
        · exact hall x hx
      · simpa using h.symm
    · simp only [hc, if_false, if_true] at h
      obtain ⟨n, m, rfl, hn, hm, hb⟩ := ih h
      refine ⟨c :: n, m, rfl, ?_, hm, hb⟩
      intro x hx
      rcases List.mem_cons.mp hx with rfl | hx
      · simpa using hc
      · exact hn x hx

theorem splitRuns_false_two (s cur : List Char) (a b : String)
    (h : splitRuns false cur s = [a, b]) :
    ∃ d n m, s = d ++ n ++ m ∧ (∀ c ∈ d, c.isDigit = true) ∧ n ≠ [] ∧
      (∀ c ∈ n, c.isDigit = false) ∧ (∀ c ∈ m, c.isDigit = true) ∧
      a = String.mk (cur.reverse ++ d) ∧ b = String.mk m := by
  induction s generalizing cur with
  | nil => simp [splitRuns] at h
  | cons c cs ih =>
    unfold splitRuns at h
    by_cases hc : c.isDigit = true
    · simp only [hc, if_true] at h
      obtain ⟨d, n, m, rfl, hd, hne, hn, hm, ha, hb⟩ := ih _ h
      refine ⟨c :: d, n, m, by simp, ?_, hne, hn, hm, ?_, hb⟩
      · intro x hx
        rcases List.mem_cons.mp hx with rfl | hx
        · exact hc
        · exact hd x hx
      · simpa using ha
    · simp only [hc, if_false] at h
      have h1 : a = String.mk cur.reverse := by
        have := congrArg List.head? h; simpa using this.symm
      have h2 : splitRuns true [] cs = [b] := by
        have := congrArg List.tail h; simpa using this
      obtain ⟨n, m, rfl, hn, hm, hb⟩ := splitRuns_true_one cs b h2
      refine ⟨[], c :: n, m, by simp, by simp, by simp, ?_, hm, by simpa using h1, hb⟩
      intro x hx
      rcases List.mem_cons.mp hx with rfl | hx
      · simpa using hc
      · exact hn x hx

theorem reSplit_ne_nil (s : String) : reSplit s ≠ [] := splitRuns_ne_nil _ _ _

theorem reSplit_eq_two (s a b : String) (h : reSplit s = [a, b]) :
    ∃ sep : String, s = a ++ sep ++ b ∧ IsDigits a ∧ IsSep sep ∧ IsDigits b := by
  obtain ⟨d, n, m, hs, hd, hne, hn, hm, ha, hb⟩ := splitRuns_false_two s.data [] a b h
  refine ⟨String.mk n, ?_, ?_, ⟨?_, ?_⟩, ?_⟩
  · apply String.ext
    simp [ha, hb, hs]
  · simpa [IsDigits, ha] using hd
  · intro h0
    apply hne
    have := congrArg String.data h0
    simpa using this
  · simpa using hn
  · simpa [IsDigits, hb] using hm

theorem Atoi_empty : Atoi "" = .error ⟨"Atoi", "", .ErrSyntax⟩ := by rfl

theorem Atoi_digits (s : String) (hne : s ≠ "") (hd : IsDigits s) :
    Atoi s = if maxInt < (digitsValue s.data : Int) then .error ⟨"Atoi", s, .ErrRange⟩
      else .ok (digitsValue s.data : Int) := by
  obtain ⟨cs⟩ := s
  cases cs with
  | nil => exact absurd rfl hne
  | cons c cs =>
    have hc : c.isDigit = true := hd c (by simp)
    have h1 : c ≠ '-' := by rintro rfl; exact absurd hc (by decide)
    have h2 : c ≠ '+' := by rintro rfl; exact absurd hc (by decide)
    have hall : (c :: cs).all Char.isDigit = true := by
      rw [List.all_eq_true]; exact hd
    have hmin : ¬ ((digitsValue (c :: cs) : Int) < minInt) := by
      have : (0 : Int) ≤ (digitsValue (c :: cs) : Int) := Int.ofNat_nonneg _
      unfold minInt; omega
    unfold Atoi
    split
    · rename_i heq; simp at heq; exact absurd heq.1 h1
    · rename_i heq; simp at heq; exact absurd heq.1 h2
    · simp [hall, hmin]

theorem parseDiscNumber_eq (t : MP3Tag Image Reader) :
    parseDiscNumber t =
      match numberBlock t.DiscNumberString t.DiscNumber t.DiscTotal with
      | .error err => .error err
      | .ok p => .ok { t with DiscNumber := p.1, DiscTotal := p.2 } := by
  unfold parseDiscNumber numberBlock
  by_cases hs : t.DiscNumberString = ""
  · simp [hs]
  · simp only [ne_eq, hs, not_false_eq_true, if_true]
    by_cases hl : (reSplit t.DiscNumberString).length = 2
    · simp only [hl, if_true]
      cases Atoi ((reSplit t.DiscNumberString).getD 1 "") with
      | error e => rfl
      | ok v =>
        simp only []
        cases Atoi ((reSplit t.DiscNumberString).getD 0 "") <;> rfl
    · simp only [hl, if_false]
      cases Atoi ((reSplit t.DiscNumberString).getD 0 "") <;> rfl

theorem parseTrackNumber_eq (t : MP3Tag Image Reader) :
    parseTrackNumber t =
      match numberBlock t.TrackNumberString t.TrackNumber t.TrackTotal with
      | .error err => .error err
      | .ok p => .ok { t with TrackNumber := p.1, TrackTotal := p.2 } := by
  unfold parseTrackNumber numberBlock
  by_cases hs : t.TrackNumberString = ""
  · simp [hs]
  · simp only [ne_eq, hs, not_false_eq_true, if_true]
    by_cases hl : (reSplit t.TrackNumberString).length = 2
    · simp only [hl, if_true]
      cases Atoi ((reSplit t.TrackNumberString).getD 1 "") with
      | error e => rfl
      | ok v =>
        simp only []
        cases Atoi ((reSplit t.TrackNumberString).getD 0 "") <;> rfl
    · simp only [hl, if_false]
      cases Atoi ((reSplit t.TrackNumberString).getD 0 "") <;> rfl

theorem splitRuns_pieces_digits (s : List Char) (b : Bool) (cur : List Char)
    (hcur : ∀ c ∈ cur, c.isDigit = true) :
    ∀ p ∈ splitRuns b cur s, IsDigits p := by
  induction s generalizing b cur with
  | nil =>
    intro p hp
    simp only [splitRuns, List.mem_singleton] at hp
    subst hp
    intro c hc
    exact hcur c (by simpa using hc)
  | cons c cs ih =>
    intro p hp
    unfold splitRuns at hp
    by_cases hc : c.isDigit = true
    · simp only [hc, if_true] at hp
      refine ih false (c :: cur) ?_ p hp
      intro x hx
      rcases List.mem_cons.mp hx with rfl | hx
      · exact hc
      · exact hcur x hx
    · simp only [hc, if_false] at hp
      by_cases hb : b = true
      · simp only [hb, if_true] at hp
        exact ih true cur hcur p hp
      · simp only [hb, if_false] at hp
        rcases List.mem_cons.mp hp with rfl | hp
        · intro x hx
          exact hcur x (by simpa using hx)
        · exact ih true [] (by simp) p hp

theorem reSplit_pieces_digits (s p : String) (hp : p ∈ reSplit s) : IsDigits p :=
  splitRuns_pieces_digits s.data false [] (by simp) p hp

theorem getD_digits (s : String) (i : Nat) : IsDigits ((reSplit s).getD i "") := by
  by_cases hi : i < (reSplit s).length
  · rw [List.getD_eq_getElem _ _ hi]
    exact reSplit_pieces_digits s _ (List.getElem_mem _)
  · rw [List.getD_eq_default _ _ (by omega)]
    intro c hc
    simp at hc

theorem Atoi_number (p : String) (h : IsNumber p) : Atoi p = .ok (value p) := by
  rw [Atoi_digits p h.1 h.2.1]
  have := h.2.2
  unfold value at this
  simp [value, not_lt.mpr this]

theorem Atoi_not_number (p : String) (hd : IsDigits p) (h : ¬ IsNumber p) :
    ∃ e, Atoi p = .error e := by
  by_cases hne : p = ""
  · subst hne; exact ⟨_, Atoi_empty⟩
  · rw [Atoi_digits p hne hd]
    have : maxInt < (digitsValue p.data : Int) := by
      by_contra hlt
      exact h ⟨hne, hd, not_lt.mp hlt⟩
    simp [this]

theorem numberBlock_empty (number total : Int) : numberBlock "" number total = .ok (number, total) := by
  simp [numberBlock]

theorem numberBlock_accepted (s : String) (number total : Int) (hs : s ≠ "")
    (h1 : IsNumber (firstPiece s)) (h2 : (reSplit s).length = 2 → IsNumber (secondPiece s)) :
    numberBlock s number total =
      .ok (value (firstPiece s), if (reSplit s).length = 2 then value (secondPiece s) else total) := by
  unfold numberBlock
  simp only [ne_eq, hs, not_false_eq_true, if_true]
  have e1 := Atoi_number _ h1
  unfold firstPiece at e1
  by_cases hl : (reSplit s).length = 2
  · have e2 := Atoi_number _ (h2 hl)
    unfold secondPiece at e2
    simp only [hl, if_true, e1, e2, firstPiece, secondPiece]
  · simp only [hl, if_false, e1, firstPiece]

theorem numberBlock_rejected (s : String) (number total : Int) (h : ¬ Accepted s) :
    ∃ e, numberBlock s number total = .error (.numError e) := by
  have hs : s ≠ "" := fun h0 => h (Or.inl h0)
  unfold numberBlock
  simp only [ne_eq, hs, not_false_eq_true, if_true]
  by_cases hl : (reSplit s).length = 2
  · simp only [hl, if_true]
    by_cases h2 : IsNumber (secondPiece s)
    · have e2 := Atoi_number _ h2
      unfold secondPiece at e2
      have h1 : ¬ IsNumber (firstPiece s) := fun h1 => h (Or.inr ⟨h1, fun _ => h2⟩)
      obtain ⟨e, he⟩ := Atoi_not_number _ (getD_digits s 0) h1
      exact ⟨e, by simp only [e2, he]⟩
    · obtain ⟨e, he⟩ := Atoi_not_number _ (getD_digits s 1) h2
      exact ⟨e, by simp only [he]⟩
  · simp only [hl, if_false]
    have h1 : ¬ IsNumber (firstPiece s) := fun h1 => h (Or.inr ⟨h1, fun h' => absurd h' hl⟩)
    obtain ⟨e, he⟩ := Atoi_not_number _ (getD_digits s 0) h1
    exact ⟨e, by simp only [he]⟩

theorem numberBlock_ok (s : String) (number total : Int) (p : Int × Int)
    (h : numberBlock s number total = .ok p) :
    Accepted s ∧
      (s = "" → p = (number, total)) ∧
      (s ≠ "" → p.1 = value (firstPiece s)) ∧
      ((reSplit s).length = 2 → p.2 = value (secondPiece s)) ∧
      ((reSplit s).length ≠ 2 → p.2 = total) := by
  have hacc : Accepted s := by
    by_contra hn
    obtain ⟨e, he⟩ := numberBlock_rejected s number total hn
    rw [he] at h
    cases h
  refine ⟨hacc, ?_⟩
  by_cases hs : s = ""
  · subst hs
    rw [numberBlock_empty] at h
    cases h
    refine ⟨fun _ => rfl, fun h0 => absurd rfl h0, ?_, fun _ => rfl⟩
    intro hl
    exact absurd hl (by decide)
  · rcases hacc with h0 | ⟨h1, h2⟩
    · exact absurd h0 hs
    · rw [numberBlock_accepted s number total hs h1 h2] at h
      cases h
      refine ⟨fun h0 => absurd h0 hs, fun _ => rfl, ?_, ?_⟩
      · intro hl; simp [hl]
      · intro hl; simp [hl]


/-! ## Lemmas on the frame loop -/

theorem copyTextFrames_nil (tag : Tag) (t : MP3Tag Image Reader) :
    copyTextFrames [] tag t = t := rfl

theorem copyTextFrames_cons (kv : String × String) (tbl : List (String × String)) (tag : Tag)
    (t : MP3Tag Image Reader) :
    copyTextFrames (kv :: tbl) tag t =
      copyTextFrames tbl tag
        (if (tag.GetTextFrame kv.2).Text = "" then t else t.setString kv.1 (tag.GetTextFrame kv.2).Text) :=
  rfl

theorem copyTextFrames_rest (tbl : List (String × String)) (tag : Tag) (t : MP3Tag Image Reader) :
    (copyTextFrames tbl tag t).DiscNumber = t.DiscNumber ∧
      (copyTextFrames tbl tag t).DiscTotal = t.DiscTotal ∧
      (copyTextFrames tbl tag t).TrackNumber = t.TrackNumber ∧
      (copyTextFrames tbl tag t).TrackTotal = t.TrackTotal ∧
      (copyTextFrames tbl tag t).CoverArt = t.CoverArt ∧
      (copyTextFrames tbl tag t).reader = t.reader := by
  induction tbl generalizing t with
  | nil => simp [copyTextFrames_nil]
  | cons kv tbl ih =>
    rw [copyTextFrames_cons]
    split_ifs
    · exact ih t
    · exact ih _

theorem copyTextFrames_other (tbl : List (String × String)) (tag : Tag) (t : MP3Tag Image Reader)
    (k : String) (hk : k ∉ tbl.map Prod.fst) :
    (copyTextFrames tbl tag t).strings k = t.strings k := by
  induction tbl generalizing t with
  | nil => rfl
  | cons kv tbl ih =>
    rw [copyTextFrames_cons]
    have hk1 : k ≠ kv.1 := fun h => hk (by simp [h])
    have hk2 : k ∉ tbl.map Prod.fst := fun h => hk (by simp only [List.map_cons]; exact List.mem_cons_of_mem _ h)
    rw [ih _ hk2]
    split_ifs
    · rfl
    · simp [MP3Tag.setString, hk1]

theorem copyTextFrames_entry (tbl : List (String × String)) (tag : Tag) (t : MP3Tag Image Reader)
    (hkeys : (tbl.map Prod.fst).Nodup) (k v : String) (hkv : (k, v) ∈ tbl) :
    (copyTextFrames tbl tag t).strings k =
      if (tag.GetTextFrame v).Text = "" then t.strings k else (tag.GetTextFrame v).Text := by
  induction tbl generalizing t with
  | nil => simp at hkv
  | cons kv tbl ih =>
    rw [copyTextFrames_cons]
    simp only [List.map_cons, List.nodup_cons] at hkeys
    rcases List.mem_cons.mp hkv with h | h
    · subst h
      rw [copyTextFrames_other tbl tag _ k hkeys.1]
      split_ifs
      · rfl
      · simp [MP3Tag.setString]
    · have hne : k ≠ kv.1 := by
        intro he
        apply hkeys.1
        rw [← he]
        exact List.mem_map_of_mem Prod.fst h
      rw [ih _ hkeys.2 h]
      split_ifs <;> simp [MP3Tag.setString, hne]

theorem decodeCoverArt_rest (imageDecode : List UInt8 → Except DecErr (Image × String)) (tag : Tag)
    (t : MP3Tag Image Reader) :
    (decodeCoverArt imageDecode tag t).strings = t.strings ∧
      (decodeCoverArt imageDecode tag t).DiscNumber = t.DiscNumber ∧
      (decodeCoverArt imageDecode tag t).DiscTotal = t.DiscTotal ∧
      (decodeCoverArt imageDecode tag t).TrackNumber = t.TrackNumber ∧
      (decodeCoverArt imageDecode tag t).TrackTotal = t.TrackTotal ∧
      (decodeCoverArt imageDecode tag t).reader = t.reader := by
  unfold decodeCoverArt
  cases tag.pictures with
  | nil => simp
  | cons pic rest =>
    simp only []
    cases imageDecode pic.Picture with
    | error e => simp
    | ok p => simp

theorem afterFrames_strings (imageDecode : List UInt8 → Except DecErr (Image × String))
    (tbl : List (String × String)) (tag : Tag) (r : Reader) :
    (afterFrames imageDecode tbl tag r).strings =
      (copyTextFrames tbl tag { (MP3Tag.zero : MP3Tag Image Reader) with reader := some r }).strings :=
  (decodeCoverArt_rest imageDecode tag _).1

theorem afterFrames_ints (imageDecode : List UInt8 → Except DecErr (Image × String))
    (tbl : List (String × String)) (tag : Tag) (r : Reader) :
    (afterFrames imageDecode tbl tag r).DiscNumber = 0 ∧
      (afterFrames imageDecode tbl tag r).DiscTotal = 0 ∧
      (afterFrames imageDecode tbl tag r).TrackNumber = 0 ∧
      (afterFrames imageDecode tbl tag r).TrackTotal = 0 := by
  have h1 := decodeCoverArt_rest imageDecode tag
    (copyTextFrames tbl tag { (MP3Tag.zero : MP3Tag Image Reader) with reader := some r })
  have h2 := copyTextFrames_rest tbl tag { (MP3Tag.zero : MP3Tag Image Reader) with reader := some r }
  unfold afterFrames
  refine ⟨?_, ?_, ?_, ?_⟩
  · rw [h1.2.1, h2.1]; rfl
  · rw [h1.2.2.1, h2.2.1]; rfl
  · rw [h1.2.2.2.1, h2.2.2.1]; rfl
  · rw [h1.2.2.2.2.1, h2.2.2.2.1]; rfl

theorem afterFrames_entry (imageDecode : List UInt8 → Except DecErr (Image × String))
    (tbl : List (String × String)) (tag : Tag) (r : Reader)
    (hkeys : (tbl.map Prod.fst).Nodup) (k v : String) (hkv : (k, v) ∈ tbl) :
    (afterFrames imageDecode tbl tag r : MP3Tag Image Reader).strings k = (tag.GetTextFrame v).Text := by
  rw [afterFrames_strings, copyTextFrames_entry tbl tag _ hkeys k v hkv]
  split_ifs with h
  · rw [h]; rfl
  · rfl

theorem afterFrames_absent (imageDecode : List UInt8 → Except DecErr (Image × String))
    (tbl : List (String × String)) (tag : Tag) (r : Reader) (k : String)
    (hk : k ∉ tbl.map Prod.fst) :
    (afterFrames imageDecode tbl tag r : MP3Tag Image Reader).strings k = "" := by
  rw [afterFrames_strings, copyTextFrames_other tbl tag _ k hk]
  rfl

theorem afterFrames_coverArt (imageDecode : List UInt8 → Except DecErr (Image × String))
    (tbl : List (String × String)) (tag : Tag) (r : Reader) :
    (afterFrames imageDecode tbl tag r : MP3Tag Image Reader).CoverArt =
      match tag.pictures with
      | [] => none
      | pic :: _ =>
        match imageDecode pic.Picture with
        | .ok p => some p.1
        | .error _ => none := by
  have h2 := copyTextFrames_rest tbl tag { (MP3Tag.zero : MP3Tag Image Reader) with reader := some r }
  unfold afterFrames decodeCoverArt
  cases tag.pictures with
  | nil => simp only []; rw [h2.2.2.2.2.1]; rfl
  | cons pic rest =>
    simp only []
    cases imageDecode pic.Picture with
    | error e => simp only []; rw [h2.2.2.2.2.1]; rfl
    | ok p => rfl

/-- `ParseMP3` on a source the tag library parses: the two number blocks run on
the record left by the frame loop and the picture step. -/
theorem ParseMP3_of_tag (ParseReader : Reader → Except LibErr Tag)
    (imageDecode : List UInt8 → Except DecErr (Image × String))
    (tbl : List (String × String)) (r : Reader) (tag : Tag) (hlib : ParseReader r = .ok tag) :
    ParseMP3 ParseReader imageDecode tbl r =
      match numberBlock (afterFrames imageDecode tbl tag r : MP3Tag Image Reader).DiscNumberString 0 0 with
      | .error err => .error err
      | .ok p =>
        match numberBlock (afterFrames imageDecode tbl tag r : MP3Tag Image Reader).TrackNumberString 0 0 with
        | .error err => .error err
        | .ok q =>
          .ok { (afterFrames imageDecode tbl tag r : MP3Tag Image Reader) with
                DiscNumber := p.1, DiscTotal := p.2, TrackNumber := q.1, TrackTotal := q.2 } := by
  obtain ⟨i1, i2, i3, i4⟩ := afterFrames_ints imageDecode tbl tag r
  unfold ParseMP3
  simp only [hlib]
  change (match parseDiscNumber (afterFrames imageDecode tbl tag r : MP3Tag Image Reader) with
    | Except.error err => (Except.error err : Except GoError (MP3Tag Image Reader))
    | Except.ok resultTag => parseTrackNumber resultTag) = _
  rw [parseDiscNumber_eq, i1, i2]
  cases numberBlock (afterFrames imageDecode tbl tag r : MP3Tag Image Reader).DiscNumberString 0 0 with
  | error e => rfl
  | ok p =>
    simp only []
    rw [parseTrackNumber_eq]
    simp only [MP3Tag.TrackNumberString, i3, i4]

theorem ParseMP3_ok_inv (ParseReader : Reader → Except LibErr Tag)
    (imageDecode : List UInt8 → Except DecErr (Image × String))
    (tbl : List (String × String)) (r : Reader) (t : MP3Tag Image Reader)
    (hok : ParseMP3 ParseReader imageDecode tbl r = .ok t) :
    ∃ tag p q, ParseReader r = .ok tag ∧
      numberBlock (afterFrames imageDecode tbl tag r : MP3Tag Image Reader).DiscNumberString 0 0 = .ok p ∧
      numberBlock (afterFrames imageDecode tbl tag r : MP3Tag Image Reader).TrackNumberString 0 0 = .ok q ∧
      t = { (afterFrames imageDecode tbl tag r : MP3Tag Image Reader) with
            DiscNumber := p.1, DiscTotal := p.2, TrackNumber := q.1, TrackTotal := q.2 } := by
  cases hlib : ParseReader r with
  | error e =>
    unfold ParseMP3 at hok
    simp only [hlib] at hok
    cases hok
  | ok tag =>
    rw [ParseMP3_of_tag ParseReader imageDecode tbl r tag hlib] at hok
    cases hD : numberBlock (afterFrames imageDecode tbl tag r : MP3Tag Image Reader).DiscNumberString 0 0 with
    | error e => rw [hD] at hok; cases hok
    | ok p =>
      rw [hD] at hok
      simp only [] at hok
      cases hT : numberBlock (afterFrames imageDecode tbl tag r : MP3Tag Image Reader).TrackNumberString 0 0 with
      | error e => rw [hT] at hok; cases hok
      | ok q =>
        rw [hT] at hok
        simp only [] at hok
        injection hok with hok
        exact ⟨tag, p, q, rfl, hD, hT, hok.symm⟩

theorem reSplit_number (s : String) (h : IsDigits s) : reSplit s = [s] := by
  unfold reSplit
  rw [splitRuns_all_digits s.data h]
  simp

theorem reSplit_startsNonDigit (s : String) (h : StartsNonDigit s) : firstPiece s = "" := by
  obtain ⟨c, cs, hs, hc⟩ := h
  unfold firstPiece reSplit
  rw [hs]
  unfold splitRuns
  simp only [hc]
  rfl

theorem not_accepted_of_startsNonDigit (s : String) (h : StartsNonDigit s) : ¬ Accepted s := by
  rintro (h0 | ⟨h1, _⟩)
  · obtain ⟨c, cs, hs, _⟩ := h
    rw [h0] at hs
    cases hs
  · rw [reSplit_startsNonDigit s h] at h1
    exact h1.1 rfl

theorem ne_empty_of_append (N sep M : String) (hN : N ≠ "") : N ++ sep ++ M ≠ "" := by
  intro h
  apply hN
  have := congrArg String.data h
  simp only [String.data_append, List.append_assoc] at this
  have h2 : N.data = [] := by
    have := List.append_eq_nil.mp this
    exact this.1
  exact String.ext h2

theorem numberBlock_wellFormed_two (N sep M : String) (hN : IsNumber N) (hsep : IsSep sep)
    (hM : IsNumber M) (number total : Int) :
    numberBlock (N ++ sep ++ M) number total = .ok (value N, value M) := by
  have hsplit := reSplit_two N sep M hN.2.1 hsep hM.2.1
  have h1 : firstPiece (N ++ sep ++ M) = N := by simp [firstPiece, hsplit]
  have h2 : secondPiece (N ++ sep ++ M) = M := by simp [secondPiece, hsplit]
  have hl : (reSplit (N ++ sep ++ M)).length = 2 := by rw [hsplit]; rfl
  rw [numberBlock_accepted _ _ _ (ne_empty_of_append N sep M hN.1) (by rw [h1]; exact hN)
    (fun _ => by rw [h2]; exact hM)]
  simp only [hl, if_true, h1, h2]

theorem numberBlock_wellFormed_one (s : String) (hs : IsNumber s) (number total : Int) :
    numberBlock s number total = .ok (value s, total) := by
  have hsplit := reSplit_number s hs.2.1
  have h1 : firstPiece s = s := by simp [firstPiece, hsplit]
  have hl : ¬ (reSplit s).length = 2 := by rw [hsplit]; simp
  rw [numberBlock_accepted _ _ _ hs.1 (by rw [h1]; exact hs) (fun h => absurd h hl)]
  simp only [hl, if_false, h1]

theorem numberBlock_emptyOrWellFormed (s : String) (h : s = "" ∨ WellFormed s) (number total : Int) :
    ∃ p, numberBlock s number total = .ok p := by
  rcases h with h | h | ⟨N, sep, M, rfl, hN, hsep, hM⟩
  · subst h; exact ⟨_, numberBlock_empty _ _⟩
  · exact ⟨_, numberBlock_wellFormed_one s h _ _⟩
  · exact ⟨_, numberBlock_wellFormed_two N sep M hN hsep hM _ _⟩

theorem twoRuns_of_total (s : String) (number : Int) (p : Int × Int)
    (h : numberBlock s number 0 = .ok p) (hp : p.2 ≠ 0) : TwoRuns s := by
  obtain ⟨hacc, h0, _, _, h4⟩ := numberBlock_ok s number 0 p h
  have hl : (reSplit s).length = 2 := by
    by_contra hl
    exact hp (h4 hl)
  have hs : s ≠ "" := by
    intro hs
    apply hp
    rw [h0 hs]
  rcases hacc with h' | ⟨h1, h2⟩
  · exact absurd h' hs
  · have h2 := h2 hl
    obtain ⟨a, b, hab⟩ : ∃ a b, reSplit s = [a, b] := by
      match hr : reSplit s, hl with
      | [a, b], _ => exact ⟨a, b, rfl⟩
    have e1 : firstPiece s = a := by simp [firstPiece, hab]
    have e2 : secondPiece s = b := by simp [secondPiece, hab]
    rw [e1] at h1
    rw [e2] at h2
    obtain ⟨sep, hsab, _, hsep, _⟩ := reSplit_eq_two s a b hab
    exact ⟨a, sep, b, hsab, h1.1, h1.2.1, hsep, h2.1, h2.2.1⟩

/-! ## The claims on `ParseMP3` -/

/-- C4: when the tag library's parse returns an error, whatever the cause,
`ParseMP3` returns no record and the fixed error `"error parsing mp3"`; the
cause does not appear in the result, and neither the table nor the image
decoder has any influence on it. -/
theorem ParseMP3_library_error (ParseReader : Reader → Except LibErr Tag)
    (imageDecode : List UInt8 → Except DecErr (Image × String))
    (tbl : List (String × String)) (r : Reader) (cause : LibErr)
    (hlib : ParseReader r = .error cause) :
    ParseMP3 ParseReader imageDecode tbl r = .error (.errorString "error parsing mp3") := by
  unfold ParseMP3
  simp only [hlib]

theorem ParseMP3_library_error_witness :
    failsWith "bad read" () = .error "bad read" ∧
      ParseMP3 (failsWith "bad read") sampleDecode sampleTextFrames () =
        .error (.errorString "error parsing mp3") ∧
      ParseMP3 (failsWith "unsupported version") sampleDecode sampleTextFrames () =
        .error (.errorString "error parsing mp3") :=
  ⟨rfl, ParseMP3_library_error _ _ _ () "bad read" rfl,
    ParseMP3_library_error _ _ _ () "unsupported version" rfl⟩

/-- C3: for every entry `(k, v)` of the table (a Go map, so its keys are
distinct) and every successful `ParseMP3`, field `k` of the record is the text
of frame `v` when that text is non-empty and is empty when the text is empty or
the frame is absent; two parses whose tags agree on frame `v` agree on field
`k`, whatever their other frames. -/
theorem ParseMP3_text_fields (ParseReader : Reader → Except LibErr Tag)
    (imageDecode : List UInt8 → Except DecErr (Image × String))
    (tbl : List (String × String)) (r : Reader) (tag : Tag) (t : MP3Tag Image Reader)
    (hkeys : (tbl.map Prod.fst).Nodup) (k v : String) (hkv : (k, v) ∈ tbl)
    (hlib : ParseReader r = .ok tag)
    (hok : ParseMP3 ParseReader imageDecode tbl r = .ok t) :
    ((tag.GetTextFrame v).Text ≠ "" → t.strings k = (tag.GetTextFrame v).Text) ∧
      ((tag.GetTextFrame v).Text = "" → t.strings k = "") ∧
      ((∀ f ∈ tag.textFrames, f.1 ≠ v) → t.strings k = "") ∧
      (∀ (ParseReader2 : Reader → Except LibErr Tag)
          (imageDecode2 : List UInt8 → Except DecErr (Image × String)) (r2 : Reader) (tag2 : Tag)
          (t2 : MP3Tag Image Reader),
          ParseReader2 r2 = .ok tag2 → ParseMP3 ParseReader2 imageDecode2 tbl r2 = .ok t2 →
          tag2.GetTextFrame v = tag.GetTextFrame v → t2.strings k = t.strings k) := by
  have key : ∀ (PR : Reader → Except LibErr Tag)
      (dec : List UInt8 → Except DecErr (Image × String)) (r' : Reader) (tag' : Tag)
      (t' : MP3Tag Image Reader), PR r' = .ok tag' → ParseMP3 PR dec tbl r' = .ok t' →
      t'.strings k = (tag'.GetTextFrame v).Text := by
    intro PR dec r' tag' t' hl ho
    obtain ⟨tag'', p, q, hl', _, _, ht⟩ := ParseMP3_ok_inv PR dec tbl r' t' ho
    rw [hl] at hl'
    injection hl' with hl'
    subst hl'
    rw [ht]
    exact afterFrames_entry dec tbl tag' r' hkeys k v hkv
  have hfield := key ParseReader imageDecode r tag t hlib hok
  refine ⟨fun _ => hfield, fun h => by rw [hfield, h], ?_, ?_⟩
  · intro habs
    rw [hfield]
    unfold Tag.GetTextFrame
    have : tag.textFrames.reverse.find? (fun f => f.1 == v) = none := by
      rw [List.find?_eq_none]
      intro f hf
      have := habs f (List.mem_reverse.mp hf)
      simpa using this
    rw [this]
  · intro PR dec r2 tag2 t2 hl ho hsame
    rw [key PR dec r2 tag2 t2 hl ho, hfield, hsame]

theorem ParseMP3_text_fields_witness :
    ∃ t, ParseMP3 (parsesTo sampleTag) sampleDecode sampleTextFrames () = .ok t ∧
      t.strings "Artist" = "TestArtist1" ∧ t.strings "Album" = "" :=
  ⟨_, rfl,
    (ParseMP3_text_fields (parsesTo sampleTag) sampleDecode sampleTextFrames () sampleTag _
      (by decide) "Artist" "TPE1" (by decide) rfl rfl).1 (by decide),
    (ParseMP3_text_fields (parsesTo sampleTag) sampleDecode sampleTextFrames () sampleTag _
      (by decide) "Album" "TALB" (by decide) rfl rfl).2.1 (by decide)⟩

/-- C2: when the record's `DiscNumberString` or `TrackNumberString` starts with
a character that is not an ASCII digit, `ParseMP3` returns no record and a
`strconv` conversion error, whatever the other frames of the tag, the table
and the pictures are. -/
theorem ParseMP3_nonnumeric_primary (ParseReader : Reader → Except LibErr Tag)
    (imageDecode : List UInt8 → Except DecErr (Image × String))
    (tbl : List (String × String)) (r : Reader) (tag : Tag)
    (hlib : ParseReader r = .ok tag)
    (hbad : StartsNonDigit (afterFrames imageDecode tbl tag r : MP3Tag Image Reader).DiscNumberString ∨
      StartsNonDigit (afterFrames imageDecode tbl tag r : MP3Tag Image Reader).TrackNumberString) :
    ∃ e, ParseMP3 ParseReader imageDecode tbl r = .error (.numError e) := by
  rw [ParseMP3_of_tag ParseReader imageDecode tbl r tag hlib]
  cases hD : numberBlock (afterFrames imageDecode tbl tag r : MP3Tag Image Reader).DiscNumberString 0 0 with
  | error err =>
    by_cases hacc : Accepted (afterFrames imageDecode tbl tag r : MP3Tag Image Reader).DiscNumberString
    · rcases hacc with h0 | ⟨h1, h2⟩
      · rw [h0, numberBlock_empty] at hD
        cases hD
      · have hne : (afterFrames imageDecode tbl tag r : MP3Tag Image Reader).DiscNumberString ≠ "" := by
          intro h0
          rw [h0, numberBlock_empty] at hD
          cases hD
        rw [numberBlock_accepted _ _ _ hne h1 h2] at hD
        cases hD
    · obtain ⟨e, he⟩ := numberBlock_rejected _ 0 0 hacc
      rw [hD] at he
      injection he with he
      exact ⟨e, by rw [he]⟩
  | ok p =>
    have haccD := (numberBlock_ok _ 0 0 p hD).1
    rcases hbad with hbad | hbad
    · exact absurd haccD (not_accepted_of_startsNonDigit _ hbad)
    · obtain ⟨e, he⟩ := numberBlock_rejected _ 0 0 (not_accepted_of_startsNonDigit _ hbad)
      exact ⟨e, by simp only [he]⟩

theorem ParseMP3_nonnumeric_primary_witness :
    ∃ e, ParseMP3 (parsesTo { sampleTag with textFrames := [("TPE1", ⟨"TestArtist1"⟩), ("TPOS", ⟨"x/2"⟩)] })
      sampleDecode sampleTextFrames () = .error (.numError e) :=
  ParseMP3_nonnumeric_primary _ sampleDecode sampleTextFrames ()
    { sampleTag with textFrames := [("TPE1", ⟨"TestArtist1"⟩), ("TPOS", ⟨"x/2"⟩)] } rfl
    (Or.inl ⟨'x', ['/', '2'], rfl, rfl⟩)


/-- C1: with both number strings in the table, a disc-number frame holding
`N ++ sep ++ M`, for numbers `N` and `M` that fit a Go `int` and a non-empty
run `sep` of non-digits, and a track-number frame that is empty or well-formed,
make `ParseMP3` succeed with `DiscNumber = value N` and `DiscTotal = value M`;
the same holds with the roles of the disc and the track frame exchanged, for
`TrackNumber` and `TrackTotal`. -/
theorem ParseMP3_number_and_total (ParseReader : Reader → Except LibErr Tag)
    (imageDecode : List UInt8 → Except DecErr (Image × String))
    (tbl : List (String × String)) (r : Reader) (tag : Tag)
    (hlib : ParseReader r = .ok tag) (hkeys : (tbl.map Prod.fst).Nodup)
    (discId trackId : String) (hdisc : ("DiscNumberString", discId) ∈ tbl)
    (htrack : ("TrackNumberString", trackId) ∈ tbl)
    (N sep M : String) (hN : IsNumber N) (hsep : IsSep sep) (hM : IsNumber M) :
    ((tag.GetTextFrame discId).Text = N ++ sep ++ M →
        ((tag.GetTextFrame trackId).Text = "" ∨ WellFormed (tag.GetTextFrame trackId).Text) →
        ∃ t : MP3Tag Image Reader, ParseMP3 ParseReader imageDecode tbl r = .ok t ∧
          t.DiscNumber = value N ∧ t.DiscTotal = value M) ∧
      ((tag.GetTextFrame trackId).Text = N ++ sep ++ M →
        ((tag.GetTextFrame discId).Text = "" ∨ WellFormed (tag.GetTextFrame discId).Text) →
        ∃ t : MP3Tag Image Reader, ParseMP3 ParseReader imageDecode tbl r = .ok t ∧
          t.TrackNumber = value N ∧ t.TrackTotal = value M) := by
  have eD : (afterFrames imageDecode tbl tag r : MP3Tag Image Reader).DiscNumberString =
      (tag.GetTextFrame discId).Text :=
    afterFrames_entry imageDecode tbl tag r hkeys _ _ hdisc
  have eT : (afterFrames imageDecode tbl tag r : MP3Tag Image Reader).TrackNumberString =
      (tag.GetTextFrame trackId).Text :=
    afterFrames_entry imageDecode tbl tag r hkeys _ _ htrack
  rw [ParseMP3_of_tag ParseReader imageDecode tbl r tag hlib, eD, eT]
  constructor
  · intro hd ht
    obtain ⟨q, hq⟩ := numberBlock_emptyOrWellFormed _ ht 0 0
    rw [hd, numberBlock_wellFormed_two N sep M hN hsep hM, hq]
    exact ⟨_, rfl, rfl, rfl⟩
  · intro ht hd
    obtain ⟨p, hp⟩ := numberBlock_emptyOrWellFormed _ hd 0 0
    rw [ht, numberBlock_wellFormed_two N sep M hN hsep hM, hp]
    exact ⟨_, rfl, rfl, rfl⟩

theorem ParseMP3_number_and_total_witness :
    (∃ t, ParseMP3 (parsesTo sampleTag) sampleDecode sampleTextFrames () = .ok t ∧
        t.DiscNumber = 1 ∧ t.DiscTotal = 2) ∧
      (∃ t, ParseMP3 (parsesTo sampleTag) sampleDecode sampleTextFrames () = .ok t ∧
        t.TrackNumber = 7 ∧ t.TrackTotal = 14) :=
  ⟨(ParseMP3_number_and_total (parsesTo sampleTag) sampleDecode sampleTextFrames () sampleTag rfl
      (by decide) "TPOS" "TRCK" (by decide) (by decide) "1" "/" "2" (by decide) (by decide)
      (by decide)).1 rfl (Or.inr (Or.inr ⟨"7", "/", "14", rfl, by decide, by decide, by decide⟩)),
    (ParseMP3_number_and_total (parsesTo sampleTag) sampleDecode sampleTextFrames () sampleTag rfl
      (by decide) "TPOS" "TRCK" (by decide) (by decide) "7" "/" "14" (by decide) (by decide)
      (by decide)).2 rfl (Or.inr (Or.inr ⟨"1", "/", "2", rfl, by decide, by decide, by decide⟩))⟩

/-- C8: on a tag the library parses and whose disc and track strings are empty
or well-formed, `ParseMP3` succeeds whatever the image decoder answers.  With
no picture frame `CoverArt` is unset; otherwise it is the decoded image of the
first picture frame's payload when that payload decodes and is unset when it
does not.  A library that delivers the same tag without the pictures after the
first yields the same result. -/
theorem ParseMP3_cover_art (ParseReader : Reader → Except LibErr Tag)
    (imageDecode : List UInt8 → Except DecErr (Image × String))
    (tbl : List (String × String)) (r : Reader) (tag : Tag)
    (hlib : ParseReader r = .ok tag)
    (hD : (afterFrames imageDecode tbl tag r : MP3Tag Image Reader).DiscNumberString = "" ∨
      WellFormed (afterFrames imageDecode tbl tag r : MP3Tag Image Reader).DiscNumberString)
    (hT : (afterFrames imageDecode tbl tag r : MP3Tag Image Reader).TrackNumberString = "" ∨
      WellFormed (afterFrames imageDecode tbl tag r : MP3Tag Image Reader).TrackNumberString) :
    ∃ t : MP3Tag Image Reader, ParseMP3 ParseReader imageDecode tbl r = .ok t ∧
      (tag.pictures = [] → t.CoverArt = none) ∧
      (∀ pic rest, tag.pictures = pic :: rest →
        (∀ img format, imageDecode pic.Picture = .ok (img, format) → t.CoverArt = some img) ∧
        (∀ err, imageDecode pic.Picture = .error err → t.CoverArt = none)) ∧
      (∀ ParseReader2 : Reader → Except LibErr Tag,
        ParseReader2 r = .ok { tag with pictures := tag.pictures.take 1 } →
        ParseMP3 ParseReader2 imageDecode tbl r = .ok t) := by
  obtain ⟨p, hp⟩ := numberBlock_emptyOrWellFormed _ hD 0 0
  obtain ⟨q, hq⟩ := numberBlock_emptyOrWellFormed _ hT 0 0
  have hcover := @afterFrames_coverArt Image Reader DecErr imageDecode tbl tag r
  refine ⟨{ (afterFrames imageDecode tbl tag r : MP3Tag Image Reader) with
            DiscNumber := p.1, DiscTotal := p.2, TrackNumber := q.1, TrackTotal := q.2 }, ?_, ?_, ?_, ?_⟩
  · rw [ParseMP3_of_tag ParseReader imageDecode tbl r tag hlib, hp, hq]
  · intro h0
    show (afterFrames imageDecode tbl tag r : MP3Tag Image Reader).CoverArt = none
    rw [hcover, h0]
  · intro pic rest hpic
    constructor
    · intro img format hdec
      show (afterFrames imageDecode tbl tag r : MP3Tag Image Reader).CoverArt = some img
      rw [hcover, hpic]
      simp only [hdec]
    · intro err hdec
      show (afterFrames imageDecode tbl tag r : MP3Tag Image Reader).CoverArt = none
      rw [hcover, hpic]
      simp only [hdec]
  · intro PR2 hlib2
    have hsame : (afterFrames imageDecode tbl { tag with pictures := tag.pictures.take 1 } r :
        MP3Tag Image Reader) = afterFrames imageDecode tbl tag r := by
      unfold afterFrames decodeCoverArt copyTextFrames Tag.GetTextFrame
      cases tag.pictures with
      | nil => rfl
      | cons pic rest => rfl
    rw [ParseMP3_of_tag PR2 imageDecode tbl r _ hlib2, hsame, hp, hq]

theorem ParseMP3_cover_art_witness :
    (∃ t, ParseMP3 (parsesTo sampleTag) sampleDecode sampleTextFrames () = .ok t ∧
        t.CoverArt = none) ∧
      (∃ t, ParseMP3 (parsesTo { sampleTag with pictures := [⟨[1]⟩, ⟨[0]⟩] }) sampleDecode
        sampleTextFrames () = .ok t ∧ t.CoverArt = some 1) := by
  obtain ⟨t, h, _, h2, _⟩ := ParseMP3_cover_art (parsesTo sampleTag) sampleDecode sampleTextFrames ()
    sampleTag rfl (Or.inr (Or.inr ⟨"1", "/", "2", rfl, by decide, by decide, by decide⟩))
    (Or.inr (Or.inr ⟨"7", "/", "14", rfl, by decide, by decide, by decide⟩))
  obtain ⟨t', h', _, h2', _⟩ := ParseMP3_cover_art
    (parsesTo { sampleTag with pictures := [⟨[1]⟩, ⟨[0]⟩] }) sampleDecode sampleTextFrames ()
    { sampleTag with pictures := [⟨[1]⟩, ⟨[0]⟩] } rfl
    (Or.inr (Or.inr ⟨"1", "/", "2", rfl, by decide, by decide, by decide⟩))
    (Or.inr (Or.inr ⟨"7", "/", "14", rfl, by decide, by decide, by decide⟩))
  exact ⟨⟨t, h, (h2 ⟨[0]⟩ [⟨[1]⟩] rfl).2 _ rfl⟩, ⟨t', h', (h2' ⟨[1]⟩ [⟨[0]⟩] rfl).1 1 "png" rfl⟩⟩

/-- C6, as stated, fails: the first piece of `"7/"` is the number `7`, the
split has the two pieces `"7"` and `""`, and `ParseMP3` returns the conversion
error of the empty second piece instead of a record with primary 7 and total
0. -/
theorem ParseMP3_trailing_separator_fails :
    reSplit "7/" = ["7", ""] ∧ IsNumber (firstPiece "7/") ∧
      ParseMP3 (parsesTo { sampleTag with textFrames := [("TPOS", ⟨"7/"⟩)] }) sampleDecode
        sampleTextFrames () = .error (.numError ⟨"Atoi", "", .ErrSyntax⟩) :=
  ⟨by decide, by decide, rfl⟩

/-- C6, amended: on a tag the library parses, `ParseMP3` succeeds exactly when
each of `DiscNumberString` and `TrackNumberString` is empty or has a first
piece that is a number fitting a Go `int` and, if the split has exactly two
pieces, a second piece that is such a number too; otherwise it fails with a
`strconv` conversion error.  On success the primary number of a non-empty
string is the value of its first piece, the total is the value of the second
piece when the split has exactly two pieces and stays 0 otherwise. -/
theorem ParseMP3_numeric_conversion (ParseReader : Reader → Except LibErr Tag)
    (imageDecode : List UInt8 → Except DecErr (Image × String))
    (tbl : List (String × String)) (r : Reader) (tag : Tag)
    (hlib : ParseReader r = .ok tag) :
    ((∃ t, ParseMP3 ParseReader imageDecode tbl r = .ok t) ↔
        Accepted (afterFrames imageDecode tbl tag r : MP3Tag Image Reader).DiscNumberString ∧
          Accepted (afterFrames imageDecode tbl tag r : MP3Tag Image Reader).TrackNumberString) ∧
      (¬ (Accepted (afterFrames imageDecode tbl tag r : MP3Tag Image Reader).DiscNumberString ∧
          Accepted (afterFrames imageDecode tbl tag r : MP3Tag Image Reader).TrackNumberString) →
        ∃ e, ParseMP3 ParseReader imageDecode tbl r = .error (.numError e)) ∧
      (∀ t, ParseMP3 ParseReader imageDecode tbl r = .ok t →
        (t.DiscNumberString ≠ "" → t.DiscNumber = value (firstPiece t.DiscNumberString)) ∧
        ((reSplit t.DiscNumberString).length = 2 →
          t.DiscTotal = value (secondPiece t.DiscNumberString)) ∧
        ((reSplit t.DiscNumberString).length ≠ 2 → t.DiscTotal = 0) ∧
        (t.TrackNumberString ≠ "" → t.TrackNumber = value (firstPiece t.TrackNumberString)) ∧
        ((reSplit t.TrackNumberString).length = 2 →
          t.TrackTotal = value (secondPiece t.TrackNumberString)) ∧
        ((reSplit t.TrackNumberString).length ≠ 2 → t.TrackTotal = 0)) := by
  have hfail : ¬ (Accepted (afterFrames imageDecode tbl tag r : MP3Tag Image Reader).DiscNumberString ∧
      Accepted (afterFrames imageDecode tbl tag r : MP3Tag Image Reader).TrackNumberString) →
      ∃ e, ParseMP3 ParseReader imageDecode tbl r = .error (.numError e) := by
    intro hn
    rw [ParseMP3_of_tag ParseReader imageDecode tbl r tag hlib]
    by_cases hD : Accepted (afterFrames imageDecode tbl tag r : MP3Tag Image Reader).DiscNumberString
    · have hT : ¬ Accepted (afterFrames imageDecode tbl tag r : MP3Tag Image Reader).TrackNumberString :=
        fun hT => hn ⟨hD, hT⟩
      obtain ⟨e, he⟩ := numberBlock_rejected _ 0 0 hT
      cases hp : numberBlock (afterFrames imageDecode tbl tag r : MP3Tag Image Reader).DiscNumberString 0 0 with
      | error err =>
        rcases hD with h0 | ⟨h1, h2⟩
        · rw [h0, numberBlock_empty] at hp
          cases hp
        · have hne : (afterFrames imageDecode tbl tag r : MP3Tag Image Reader).DiscNumberString ≠ "" := by
            intro h0
            rw [h0, numberBlock_empty] at hp
            cases hp
          rw [numberBlock_accepted _ _ _ hne h1 h2] at hp
          cases hp
      | ok p => exact ⟨e, by simp only [he]⟩
    · obtain ⟨e, he⟩ := numberBlock_rejected _ 0 0 hD
      exact ⟨e, by simp only [he]⟩
  refine ⟨⟨?_, ?_⟩, hfail, ?_⟩
  · rintro ⟨t, ht⟩
    by_contra hn
    obtain ⟨e, he⟩ := hfail hn
    rw [he] at ht
    cases ht
  · rintro ⟨hD, hT⟩
    by_contra hn
    cases hres : ParseMP3 ParseReader imageDecode tbl r with
    | ok t => exact hn ⟨t, hres⟩
    | error err =>
      rw [ParseMP3_of_tag ParseReader imageDecode tbl r tag hlib] at hres
      cases hp : numberBlock (afterFrames imageDecode tbl tag r : MP3Tag Image Reader).DiscNumberString 0 0 with
      | error e1 =>
        rcases hD with h0 | ⟨h1, h2⟩
        · rw [h0, numberBlock_empty] at hp
          cases hp
        · have hne : (afterFrames imageDecode tbl tag r : MP3Tag Image Reader).DiscNumberString ≠ "" := by
            intro h0
            rw [h0, numberBlock_empty] at hp
            cases hp
          rw [numberBlock_accepted _ _ _ hne h1 h2] at hp
          cases hp
      | ok p =>
        rw [hp] at hres
        simp only [] at hres
        cases hq : numberBlock (afterFrames imageDecode tbl tag r : MP3Tag Image Reader).TrackNumberString 0 0 with
        | error e2 =>
          rcases hT with h0 | ⟨h1, h2⟩
          · rw [h0, numberBlock_empty] at hq
            cases hq
          · have hne : (afterFrames imageDecode tbl tag r : MP3Tag Image Reader).TrackNumberString ≠ "" := by
              intro h0
              rw [h0, numberBlock_empty] at hq
              cases hq
            rw [numberBlock_accepted _ _ _ hne h1 h2] at hq
            cases hq
        | ok q =>
          rw [hq] at hres
          cases hres
  · intro t ht
    obtain ⟨tag', p, q, hl', hp, hq, rfl⟩ := ParseMP3_ok_inv ParseReader imageDecode tbl r t ht
    rw [hlib] at hl'
    injection hl' with hl'
    subst hl'
    obtain ⟨_, _, p1, p2, p3⟩ := numberBlock_ok _ 0 0 p hp
    obtain ⟨_, _, q1, q2, q3⟩ := numberBlock_ok _ 0 0 q hq
    exact ⟨p1, p2, p3, q1, q2, q3⟩

theorem ParseMP3_numeric_conversion_witness :
    (¬ ∃ t, ParseMP3 (parsesTo { sampleTag with textFrames := [("TPOS", ⟨"7/"⟩)] }) sampleDecode
        sampleTextFrames () = .ok t) ∧
      (∃ t, ParseMP3 (parsesTo { sampleTag with textFrames := [("TPOS", ⟨"1/2/3"⟩), ("TRCK", ⟨"7/14"⟩)] })
        sampleDecode sampleTextFrames () = .ok t ∧ t.DiscNumber = 1 ∧ t.DiscTotal = 0 ∧
        t.TrackNumber = 7 ∧ t.TrackTotal = 14) := by
  have h1 := ParseMP3_numeric_conversion (parsesTo { sampleTag with textFrames := [("TPOS", ⟨"7/"⟩)] })
    sampleDecode sampleTextFrames () _ rfl
  have h2 := ParseMP3_numeric_conversion
    (parsesTo { sampleTag with textFrames := [("TPOS", ⟨"1/2/3"⟩), ("TRCK", ⟨"7/14"⟩)] })
    sampleDecode sampleTextFrames () _ rfl
  constructor
  · rw [h1.1]
    rintro ⟨hD, _⟩
    revert hD
    decide
  · obtain ⟨a, b, c, d, e, f⟩ := h2.2.2 _ rfl
    exact ⟨_, rfl, a (by decide), c (by decide), d (by decide), e (by decide)⟩

/-- C7: in every record that `ParseMP3` returns, a non-zero `DiscTotal` (resp.
`TrackTotal`) means that `DiscNumberString` (resp. `TrackNumberString`) is two
non-empty runs of ASCII digits around one non-empty run of non-digits; for a
string of any other shape the total is 0 and the primary number is the value of
the first run, or 0 for the empty string. -/
theorem ParseMP3_total_invariant (ParseReader : Reader → Except LibErr Tag)
    (imageDecode : List UInt8 → Except DecErr (Image × String))
    (tbl : List (String × String)) (r : Reader) (t : MP3Tag Image Reader)
    (hok : ParseMP3 ParseReader imageDecode tbl r = .ok t) :
    (t.DiscTotal ≠ 0 → TwoRuns t.DiscNumberString) ∧
      (t.TrackTotal ≠ 0 → TwoRuns t.TrackNumberString) ∧
      (¬ TwoRuns t.DiscNumberString →
        t.DiscTotal = 0 ∧
          (t.DiscNumberString ≠ "" → t.DiscNumber = value (firstPiece t.DiscNumberString)) ∧
          (t.DiscNumberString = "" → t.DiscNumber = 0)) ∧
      (¬ TwoRuns t.TrackNumberString →
        t.TrackTotal = 0 ∧
          (t.TrackNumberString ≠ "" → t.TrackNumber = value (firstPiece t.TrackNumberString)) ∧
          (t.TrackNumberString = "" → t.TrackNumber = 0)) := by
  obtain ⟨tag, p, q, _, hp, hq, rfl⟩ := ParseMP3_ok_inv ParseReader imageDecode tbl r t hok
  obtain ⟨_, p0, p1, _, _⟩ := numberBlock_ok _ 0 0 p hp
  obtain ⟨_, q0, q1, _, _⟩ := numberBlock_ok _ 0 0 q hq
  have hP : p.2 ≠ 0 → TwoRuns (afterFrames imageDecode tbl tag r : MP3Tag Image Reader).DiscNumberString :=
    twoRuns_of_total _ 0 p hp
  have hQ : q.2 ≠ 0 → TwoRuns (afterFrames imageDecode tbl tag r : MP3Tag Image Reader).TrackNumberString :=
    twoRuns_of_total _ 0 q hq
  refine ⟨hP, hQ, ?_, ?_⟩
  · intro hn
    refine ⟨?_, p1, fun h0 => by rw [p0 h0]⟩
    by_contra h
    exact hn (hP h)
  · intro hn
    refine ⟨?_, q1, fun h0 => by rw [q0 h0]⟩
    by_contra h
    exact hn (hQ h)

theorem ParseMP3_total_invariant_witness :
    ∃ t, ParseMP3 (parsesTo sampleTag) sampleDecode sampleTextFrames () = .ok t ∧
      t.DiscTotal = 2 ∧ TwoRuns t.DiscNumberString ∧ TwoRuns t.TrackNumberString :=
  ⟨_, rfl, rfl,
    (ParseMP3_total_invariant (parsesTo sampleTag) sampleDecode sampleTextFrames () _ rfl).1
      (by decide),
    (ParseMP3_total_invariant (parsesTo sampleTag) sampleDecode sampleTextFrames () _ rfl).2.1
      (by decide)⟩

/-! ## Lemmas on the save path -/

theorem digitChar_toNat (d : Nat) (h : d < 10) : (digitChar d).toNat = 48 + d := by
  interval_cases d <;> rfl

theorem digitChar_isDigit (d : Nat) (h : d < 10) : (digitChar d).isDigit = true := by
  interval_cases d <;> rfl

theorem formatDigits_value (fuel n : Nat) (acc : List Char) (h : n < fuel) :
    (formatDigits fuel n acc).foldl (fun m ch => m * 10 + (ch.toNat - 48)) 0 =
      acc.foldl (fun m ch => m * 10 + (ch.toNat - 48)) n := by
  induction fuel generalizing n acc with
  | zero => omega
  | succ fuel ih =>
    unfold formatDigits
    by_cases hn : n < 10
    · simp only [hn, if_true, List.foldl_cons, digitChar_toNat n hn]
      congr 1
      omega
    · simp only [hn, if_false]
      rw [ih (n / 10) _ (by omega)]
      simp only [List.foldl_cons, digitChar_toNat (n % 10) (Nat.mod_lt _ (by decide))]
      congr 1
      omega

theorem formatDigits_digits (fuel n : Nat) (acc : List Char)
    (hacc : ∀ c ∈ acc, c.isDigit = true) :
    ∀ c ∈ formatDigits fuel n acc, c.isDigit = true := by
  induction fuel generalizing n acc with
  | zero => simpa [formatDigits] using hacc
  | succ fuel ih =>
    unfold formatDigits
    by_cases hn : n < 10
    · simp only [hn, if_true]
      intro c hc
      rcases List.mem_cons.mp hc with rfl | hc
      · exact digitChar_isDigit n hn
      · exact hacc c hc
    · simp only [hn, if_false]
      apply ih
      intro c hc
      rcases List.mem_cons.mp hc with rfl | hc
      · exact digitChar_isDigit _ (Nat.mod_lt _ (by decide))
      · exact hacc c hc

theorem formatDigits_ne_nil (fuel n : Nat) (acc : List Char) (h : fuel ≠ 0 ∨ acc ≠ []) :
    formatDigits fuel n acc ≠ [] := by
  induction fuel generalizing n acc with
  | zero =>
    rcases h with h | h
    · exact absurd rfl h
    · simpa [formatDigits] using h
  | succ fuel ih =>
    unfold formatDigits
    by_cases hn : n < 10
    · simp [hn]
    · simp only [hn, if_false]
      exact ih _ _ (Or.inr (by simp))

/-- `Atoi` reads back what `Itoa` writes for a value in `0 .. maxInt`. -/
theorem Itoa_isNumber (i : Int) (h0 : 0 ≤ i) (h1 : i ≤ maxInt) :
    IsNumber (Itoa i) ∧ value (Itoa i) = i := by
  have hneg : ¬ i < 0 := not_lt.mpr h0
  have hval : value (Itoa i) = i := by
    unfold value Itoa digitsValue
    simp only [hneg, if_false]
    rw [formatDigits_value _ _ _ (Nat.lt_succ_self _)]
    simp only [List.foldl_nil]
    exact Int.natAbs_of_nonneg h0
  refine ⟨⟨?_, ?_, ?_⟩, hval⟩
  · intro h
    have := congrArg String.data h
    unfold Itoa at this
    simp only [hneg, if_false] at this
    exact formatDigits_ne_nil _ _ _ (Or.inl (Nat.succ_ne_zero _)) this
  · unfold IsDigits Itoa
    simp only [hneg, if_false]
    exact formatDigits_digits _ _ _ (by simp)
  · rw [hval]; exact h1

theorem numberBlock_compositeString (number total : Int) (h : Storable number total) :
    numberBlock (compositeString number total) 0 0 = .ok (number, total) := by
  obtain ⟨n0, n1, t0, t1, hz⟩ := h
  unfold compositeString
  by_cases hn : number = 0
  · have ht := hz hn
    subst hn
    subst ht
    simp [numberBlock_empty]
  · by_cases ht : total = 0
    · subst ht
      obtain ⟨hnum, hv⟩ := Itoa_isNumber number n0 n1
      simp only [ne_eq, hn, not_false_eq_true, not_true_eq_false, and_false, if_false, if_true]
      rw [numberBlock_wellFormed_one _ hnum, hv]
    · obtain ⟨hnum, hv⟩ := Itoa_isNumber number n0 n1
      obtain ⟨hnum2, hv2⟩ := Itoa_isNumber total t0 t1
      simp only [ne_eq, hn, ht, not_false_eq_true, and_self, if_true]
      rw [numberBlock_wellFormed_two _ "/" _ hnum (by decide) hnum2, hv, hv2]

theorem saveTag_GetTextFrame (imageEncode : Image → List UInt8) (tbl : List (String × String))
    (t : MP3Tag Image Reader) (hids : (tbl.map Prod.snd).Nodup) (k v : String)
    (hkv : (k, v) ∈ tbl) :
    ((saveTag imageEncode tbl t).GetTextFrame v).Text = savedText t k := by
  unfold Tag.GetTextFrame
  cases hf : (saveTag imageEncode tbl t).textFrames.reverse.find? (fun f => f.1 == v) with
  | some f =>
    simp only []
    have hp := List.find?_some hf
    have hmem := List.mem_reverse.mp (List.mem_of_find?_eq_some hf)
    unfold saveTag at hmem
    simp only [List.mem_filterMap] at hmem
    obtain ⟨kv, hkv', hsome⟩ := hmem
    by_cases he : savedText t kv.1 = ""
    · simp [he] at hsome
    · simp only [he, if_false, Option.some.injEq] at hsome
      subst hsome
      have hv : kv.2 = v := by simpa using hp
      have : kv = (k, v) := List.inj_on_of_nodup_map hids hkv' hkv (by simpa using hv)
      subst this
      rfl
  | none =>
    simp only []
    by_contra hne
    have hne' : savedText t k ≠ "" := fun h => hne h.symm
    rw [List.find?_eq_none] at hf
    have hmem : (v, (⟨savedText t k⟩ : TextFrame)) ∈ (saveTag imageEncode tbl t).textFrames.reverse := by
      rw [List.mem_reverse]
      unfold saveTag
      simp only [List.mem_filterMap]
      exact ⟨(k, v), hkv, by simp [hne']⟩
    have := hf _ hmem
    simp at this

theorem copyTextFrames_all_empty (tbl : List (String × String)) (tag : Tag)
    (t : MP3Tag Image Reader) (h : ∀ id, (tag.GetTextFrame id).Text = "") :
    copyTextFrames tbl tag t = t := by
  induction tbl with
  | nil => rfl
  | cons kv tbl ih =>
    rw [copyTextFrames_cons]
    simp only [h kv.2, if_true]
    exact ih

theorem savedText_ClearAllTags (t : MP3Tag Image Reader) (k : String) :
    savedText t.ClearAllTags k = "" := by
  unfold savedText MP3Tag.ClearAllTags MP3Tag.zero compositeString
  split_ifs <;> simp_all

theorem saveTag_ClearAllTags (imageEncode : Image → List UInt8) (tbl : List (String × String))
    (t : MP3Tag Image Reader) :
    saveTag imageEncode tbl t.ClearAllTags = { textFrames := [], pictures := [] } := by
  unfold saveTag
  have h1 : tbl.filterMap (fun kv => if savedText t.ClearAllTags kv.1 = "" then none
      else some (kv.2, (⟨savedText t.ClearAllTags kv.1⟩ : TextFrame))) = [] := by
    rw [List.filterMap_eq_nil_iff]
    intro kv _
    simp [savedText_ClearAllTags]
  rw [h1]
  rfl

theorem rewrite_error_iff (env : Streams) (calls : List StreamCall) (c : Counters) :
    (∃ e, rewrite env calls c = .error e) ↔
      ∃ call cause, (call, some cause) ∈ callsMade env calls c := by
  induction calls generalizing c with
  | nil => simp [rewrite, callsMade]
  | cons call rest ih =>
    unfold rewrite callsMade
    cases ho : env.outcome c call with
    | some cause =>
      simp only []
      constructor
      · intro _
        exact ⟨call, cause, by simp⟩
      · intro _
        exact ⟨_, rfl⟩
    | none =>
      simp only []
      rw [ih]
      constructor
      · rintro ⟨call', cause, hm⟩
        exact ⟨call', cause, List.mem_cons_of_mem _ hm⟩
      · rintro ⟨call', cause, hm⟩
        rcases List.mem_cons.mp hm with h | h
        · cases h
        · exact ⟨call', cause, h⟩

/-- `Atoi` reads back what `Itoa` writes for every value of a Go `int`. -/
theorem Atoi_Itoa (i : Int) (h0 : minInt ≤ i) (h1 : i ≤ maxInt) : Atoi (Itoa i) = .ok i := by
  by_cases hneg : i < 0
  · have hds : ∀ c ∈ formatDigits (i.natAbs + 1) i.natAbs [], c.isDigit = true :=
      formatDigits_digits _ _ _ (by simp)
    have hne : formatDigits (i.natAbs + 1) i.natAbs [] ≠ [] :=
      formatDigits_ne_nil _ _ _ (Or.inl (Nat.succ_ne_zero _))
    have hall : (formatDigits (i.natAbs + 1) i.natAbs []).all Char.isDigit = true := by
      rw [List.all_eq_true]; exact hds
    have hval : digitsValue (formatDigits (i.natAbs + 1) i.natAbs []) = i.natAbs := by
      unfold digitsValue
      rw [formatDigits_value _ _ _ (Nat.lt_succ_self _)]
      rfl
    have habs : -(i.natAbs : Int) = i := by omega
    have hmax : ¬ maxInt < i := not_lt.mpr h1
    have hmin : ¬ i < minInt := not_lt.mpr h0
    unfold Atoi Itoa
    simp only [hneg, if_true, hne, if_false, hall, hval, habs, hmax, hmin, or_self,
      Bool.true_eq_false]
  · have h := Itoa_isNumber i (not_lt.mp hneg) h1
    rw [Atoi_number _ h.1, h.2]

/-- The integer getter returns what the integer setter stored. -/
theorem GetInt_SetInt (t : MP3Tag Image Reader) (k : String) (n : Int) (h0 : minInt ≤ n)
    (h1 : n ≤ maxInt) : (t.SetInt k n).GetInt k = n := by
  unfold MP3Tag.GetInt MP3Tag.SetInt MP3Tag.setString
  simp only [if_true, Atoi_Itoa n h0 h1]

theorem rewrite_bufferStreams (calls : List StreamCall) (c : Counters) :
    rewrite bufferStreams calls c = .ok () := by
  induction calls generalizing c with
  | nil => rfl
  | cons call rest ih =>
    unfold rewrite
    have : bufferStreams.outcome c call = none := by cases call <;> rfl
    simp only [this]
    exact ih _

/-- The numbers and totals of a parsed record are never negative: they are 0
or the value of a run of digits. -/
theorem ParseMP3_numbers_nonneg (ParseReader : Reader → Except LibErr Tag)
    (imageDecode : List UInt8 → Except DecErr (Image × String))
    (tbl : List (String × String)) (r : Reader) (t : MP3Tag Image Reader)
    (hok : ParseMP3 ParseReader imageDecode tbl r = .ok t) :
    0 ≤ t.DiscNumber ∧ 0 ≤ t.DiscTotal ∧ 0 ≤ t.TrackNumber ∧ 0 ≤ t.TrackTotal := by
  obtain ⟨tag, p, q, _, hp, hq, rfl⟩ := ParseMP3_ok_inv ParseReader imageDecode tbl r t hok
  have key : ∀ (s : String) (x : Int × Int), numberBlock s 0 0 = .ok x → 0 ≤ x.1 ∧ 0 ≤ x.2 := by
    intro s x hx
    obtain ⟨_, h0, h1, h2, h3⟩ := numberBlock_ok s 0 0 x hx
    constructor
    · by_cases hs : s = ""
      · rw [h0 hs]
      · rw [h1 hs]; exact Int.ofNat_nonneg _
    · by_cases hl : (reSplit s).length = 2
      · rw [h2 hl]; exact Int.ofNat_nonneg _
      · rw [h3 hl]
  exact ⟨(key _ p hp).1, (key _ p hp).2, (key _ q hq).1, (key _ q hq).2⟩

/-! ## The claims on the save path -/

/-- C5, as stated, fails: `SetDiscNumber(-1)` gives a record whose getter
returns -1, and no buffer, whatever `Save` wrote into it and whatever the tag
library and the table are, makes `ParseMP3` return a record whose
`GetDiscNumber` is -1: the number blocks of lines 40-65 only produce 0 and
values of digit runs. -/
theorem Save_ParseMP3_negative_number :
    ((MP3Tag.zero : MP3Tag Nat Tag).SetDiscNumber (-1)).GetDiscNumber = -1 ∧
      ¬ ∃ (ParseReader : Tag → Except String Tag)
          (imageDecode : List UInt8 → Except String (Nat × String))
          (tbl : List (String × String)) (buf : Tag) (t2 : MP3Tag Nat Tag),
          ParseMP3 ParseReader imageDecode tbl buf = .ok t2 ∧
            t2.GetDiscNumber = ((MP3Tag.zero : MP3Tag Nat Tag).SetDiscNumber (-1)).GetDiscNumber := by
  refine ⟨rfl, ?_⟩
  rintro ⟨ParseReader, imageDecode, tbl, buf, t2, hok, hget⟩
  have h := (ParseMP3_numbers_nonneg ParseReader imageDecode tbl buf t2 hok).1
  have h1 : t2.DiscNumber = -1 := hget
  omega

/-- C5, amended: let the record's disc and track numbers be storable (primary
number and total within `0 .. maxInt`, a total only together with its primary
number), the table have distinct field names and distinct frame identifiers and
hold both number strings, and the tag library read back from the saved buffer
the text frames that `Save` wrote.  Then `Save` into a buffer succeeds and
`ParseMP3` of that buffer succeeds with a record whose getters return the
values of the saved record: every string field of the table other than the two
number strings, the integers `BPM` and `Year` when the table holds them, and
`DiscNumber`, `DiscTotal`, `TrackNumber`, `TrackTotal`. -/
theorem Save_ParseMP3_round_trip (ParseReader : Reader → Except LibErr Tag)
    (imageDecode : List UInt8 → Except DecErr (Image × String))
    (imageEncode : Image → List UInt8) (tagWriter : Tag → List StreamCall)
    (written : Tag → Reader) (tbl : List (String × String)) (t : MP3Tag Image Reader)
    (hkeys : (tbl.map Prod.fst).Nodup) (hids : (tbl.map Prod.snd).Nodup)
    (discId trackId : String) (hdisc : ("DiscNumberString", discId) ∈ tbl)
    (htrack : ("TrackNumberString", trackId) ∈ tbl)
    (hlib : ∃ back, ParseReader (written (saveTag imageEncode tbl t)) = .ok back ∧
      ∀ id, back.GetTextFrame id = (saveTag imageEncode tbl t).GetTextFrame id)
    (hD : Storable t.GetDiscNumber t.GetDiscTotal)
    (hT : Storable t.GetTrackNumber t.GetTrackTotal) :
    ∃ (buf : Reader) (t2 : MP3Tag Image Reader),
      t.Save tagWriter written imageEncode tbl = .ok buf ∧
      ParseMP3 ParseReader imageDecode tbl buf = .ok t2 ∧
      (∀ k v, (k, v) ∈ tbl → k ≠ "DiscNumberString" → k ≠ "TrackNumberString" →
        t2.GetText k = t.GetText k ∧ t2.GetInt k = t.GetInt k) ∧
      (∀ id, ("BPM", id) ∈ tbl → t2.GetBPM = t.GetBPM) ∧
      (∀ id, ("Year", id) ∈ tbl → t2.GetYear = t.GetYear) ∧
      t2.GetDiscNumber = t.GetDiscNumber ∧ t2.GetDiscTotal = t.GetDiscTotal ∧
      t2.GetTrackNumber = t.GetTrackNumber ∧ t2.GetTrackTotal = t.GetTrackTotal := by
  obtain ⟨back, hparse, hframes⟩ := hlib
  have hD : Storable t.DiscNumber t.DiscTotal := hD
  have hT : Storable t.TrackNumber t.TrackTotal := hT
  have hsave : t.Save tagWriter written imageEncode tbl = .ok (written (saveTag imageEncode tbl t)) := by
    unfold MP3Tag.Save SaveMP3
    rw [rewrite_bufferStreams]
  have hfield : ∀ k v, (k, v) ∈ tbl →
      (afterFrames imageDecode tbl back (written (saveTag imageEncode tbl t)) :
        MP3Tag Image Reader).strings k = savedText t k := by
    intro k v hkv
    rw [afterFrames_entry imageDecode tbl back _ hkeys k v hkv, hframes,
      saveTag_GetTextFrame imageEncode tbl t hids k v hkv]
  have eD : (afterFrames imageDecode tbl back (written (saveTag imageEncode tbl t)) :
      MP3Tag Image Reader).DiscNumberString = compositeString t.DiscNumber t.DiscTotal := by
    unfold MP3Tag.DiscNumberString
    rw [hfield _ _ hdisc]
    simp [savedText]
  have eT : (afterFrames imageDecode tbl back (written (saveTag imageEncode tbl t)) :
      MP3Tag Image Reader).TrackNumberString = compositeString t.TrackNumber t.TrackTotal := by
    unfold MP3Tag.TrackNumberString
    rw [hfield _ _ htrack]
    simp [savedText]
  have hstr : ∀ k v, (k, v) ∈ tbl → k ≠ "DiscNumberString" → k ≠ "TrackNumberString" →
      (afterFrames imageDecode tbl back (written (saveTag imageEncode tbl t)) :
        MP3Tag Image Reader).strings k = t.strings k := by
    intro k v hkv h1 h2
    rw [hfield k v hkv]
    simp [savedText, h1, h2]
  have hp : ParseMP3 ParseReader imageDecode tbl (written (saveTag imageEncode tbl t)) =
      .ok { (afterFrames imageDecode tbl back (written (saveTag imageEncode tbl t)) :
              MP3Tag Image Reader) with
            DiscNumber := t.DiscNumber, DiscTotal := t.DiscTotal,
            TrackNumber := t.TrackNumber, TrackTotal := t.TrackTotal } := by
    rw [ParseMP3_of_tag ParseReader imageDecode tbl _ back hparse, eD, eT,
      numberBlock_compositeString _ _ hD, numberBlock_compositeString _ _ hT]
  refine ⟨written (saveTag imageEncode tbl t), _, hsave, hp, ?_⟩
  · refine ⟨?_, ?_, ?_, rfl, rfl, rfl, rfl⟩
    · intro k v hkv h1 h2
      have := hstr k v hkv h1 h2
      exact ⟨this, by unfold MP3Tag.GetInt; simp only [this]⟩
    · intro id hid
      have := hstr "BPM" id hid (by decide) (by decide)
      unfold MP3Tag.GetBPM MP3Tag.GetInt
      simp only [this]
    · intro id hid
      have := hstr "Year" id hid (by decide) (by decide)
      unfold MP3Tag.GetYear MP3Tag.GetInt
      simp only [this]

theorem Save_ParseMP3_round_trip_witness :
    ∃ buf t2, testRecord.Save sampleWriter id sampleEncode testTextFrames = .ok buf ∧
      ParseMP3 readsBack sampleDecode testTextFrames buf = .ok t2 ∧
      t2.GetText "Artist" = "TestArtist1" ∧ t2.GetText "Album" = "TestAlbum1" ∧
      t2.GetText "Title" = "TestTitle1" ∧ t2.GetBPM = 115 ∧ t2.GetYear = 2008 ∧
      t2.GetDiscNumber = 1 ∧ t2.GetDiscTotal = 2 ∧ t2.GetTrackNumber = 7 ∧
      t2.GetTrackTotal = 14 := by
  obtain ⟨buf, t2, hsave, h, hs, hb, hy, h1, h2, h3, h4⟩ := Save_ParseMP3_round_trip readsBack
    sampleDecode sampleEncode sampleWriter id testTextFrames testRecord (by decide) (by decide)
    "TPOS" "TRCK" (by decide) (by decide) ⟨_, rfl, fun _ => rfl⟩ (by decide) (by decide)
  exact ⟨buf, t2, hsave, h,
    (hs "Artist" "TPE1" (by decide) (by decide) (by decide)).1.trans rfl,
    (hs "Album" "TALB" (by decide) (by decide) (by decide)).1.trans rfl,
    (hs "Title" "TIT2" (by decide) (by decide) (by decide)).1.trans rfl,
    (hb "TBPM" (by decide)).trans rfl, (hy "TYER" (by decide)).trans rfl, h1, h2, h3, h4⟩

/-- C10: whatever the fields of a record are, if the tag library parses the
buffer saved after `ClearAllTags` to the frames that `Save` wrote, `ParseMP3`
of the buffer succeeds with every string field empty, `DiscNumber`,
`DiscTotal`, `TrackNumber`, `TrackTotal` zero and no cover art. -/
theorem ClearAllTags_Save_ParseMP3 (ParseReader : Reader → Except LibErr Tag)
    (imageDecode : List UInt8 → Except DecErr (Image × String))
    (imageEncode : Image → List UInt8) (tbl : List (String × String))
    (t : MP3Tag Image Reader) (buf : Reader) (written : Tag)
    (hparse : ParseReader buf = .ok written)
    (hframes : ∀ id, written.GetTextFrame id =
      (saveTag imageEncode tbl t.ClearAllTags).GetTextFrame id)
    (hpics : written.pictures = (saveTag imageEncode tbl t.ClearAllTags).pictures) :
    ∃ t2 : MP3Tag Image Reader, ParseMP3 ParseReader imageDecode tbl buf = .ok t2 ∧
      (∀ k, t2.strings k = "") ∧
      t2.DiscNumber = 0 ∧ t2.DiscTotal = 0 ∧ t2.TrackNumber = 0 ∧ t2.TrackTotal = 0 ∧
      t2.CoverArt = none := by
  rw [saveTag_ClearAllTags] at hframes hpics
  have hempty : ∀ id, (written.GetTextFrame id).Text = "" := by
    intro id
    rw [hframes]
    rfl
  have hstr : ∀ k, (afterFrames imageDecode tbl written buf : MP3Tag Image Reader).strings k = "" := by
    intro k
    rw [afterFrames_strings, copyTextFrames_all_empty tbl written _ hempty]
    rfl
  have hcover : (afterFrames imageDecode tbl written buf : MP3Tag Image Reader).CoverArt = none := by
    rw [afterFrames_coverArt, hpics]
  have eD : (afterFrames imageDecode tbl written buf : MP3Tag Image Reader).DiscNumberString = "" :=
    hstr _
  have eT : (afterFrames imageDecode tbl written buf : MP3Tag Image Reader).TrackNumberString = "" :=
    hstr _
  rw [ParseMP3_of_tag ParseReader imageDecode tbl buf written hparse, eD, eT, numberBlock_empty]
  exact ⟨_, rfl, hstr, rfl, rfl, rfl, rfl, hcover⟩

theorem ClearAllTags_Save_ParseMP3_witness :
    ∃ t t2, ParseMP3 (parsesTo sampleTag) sampleDecode sampleTextFrames () = .ok t ∧
      ParseMP3 (parsesTo (saveTag sampleEncode sampleTextFrames t.ClearAllTags)) sampleDecode
        sampleTextFrames () = .ok t2 ∧
      t2.strings "Artist" = "" ∧ t2.strings "Album" = "" ∧ t2.strings "Title" = "" ∧
      t2.DiscNumber = 0 ∧ t2.CoverArt = none := by
  obtain ⟨t, ht⟩ : ∃ t, ParseMP3 (parsesTo sampleTag) sampleDecode sampleTextFrames () = .ok t :=
    ⟨_, rfl⟩
  obtain ⟨t2, h, hs, h1, _, _, _, hc⟩ := ClearAllTags_Save_ParseMP3
    (parsesTo (saveTag sampleEncode sampleTextFrames t.ClearAllTags)) sampleDecode sampleEncode
    sampleTextFrames t () _ rfl (fun _ => rfl) rfl
  exact ⟨t, t2, ht, h, hs _, hs _, hs _, h1, hc⟩

/-- C9: `SaveMP3` returns an error when the seek of the original source to its
start fails, and whenever any stream call it makes fails: a later seek, a read
of the source or a write to the destination, also a write that follows writes
the destination accepted.  When it reports success every call it made
succeeded. -/
theorem SaveMP3_stream_failure (tagWriter : Tag → List StreamCall)
    (imageEncode : Image → List UInt8) (tbl : List (String × String))
    (t : MP3Tag Image Reader) (env : Streams) :
    (∀ cause, env.seek 0 = some cause →
        SaveMP3 tagWriter imageEncode tbl t env = .error (.errorString cause)) ∧
      ((∃ call cause, (call, some cause) ∈ SaveMP3Calls tagWriter imageEncode tbl t env) →
        ∃ e, SaveMP3 tagWriter imageEncode tbl t env = .error e) ∧
      (SaveMP3 tagWriter imageEncode tbl t env = .ok () →
        ∀ c ∈ SaveMP3Calls tagWriter imageEncode tbl t env, c.2 = none) := by
  have hiff := rewrite_error_iff env (.seekStart :: tagWriter (saveTag imageEncode tbl t)) ⟨0, 0, 0⟩
  refine ⟨?_, hiff.mpr, ?_⟩
  · intro cause hc
    unfold SaveMP3 rewrite
    have : env.outcome ⟨0, 0, 0⟩ .seekStart = some cause := hc
    simp only [this]
  · intro hok c hc
    cases hc2 : c.2 with
    | none => rfl
    | some cause =>
      exfalso
      obtain ⟨e, he⟩ := hiff.mpr ⟨c.1, cause, by rw [← hc2]; exact hc⟩
      unfold SaveMP3 at hok
      rw [hok] at he
      cases he

theorem SaveMP3_stream_failure_witness :
    SaveMP3 sampleWriter sampleEncode sampleTextFrames (MP3Tag.zero : MP3Tag Nat Unit)
        { healthyStreams with seek := fun _ => some "bad seek" } =
        .error (.errorString "bad seek") ∧
      (∃ e, SaveMP3 sampleWriter sampleEncode sampleTextFrames (MP3Tag.zero : MP3Tag Nat Unit)
        { healthyStreams with write := fun n => if n = 1 then some "bad write" else none } =
        .error e) :=
  ⟨(SaveMP3_stream_failure sampleWriter sampleEncode sampleTextFrames
      (MP3Tag.zero : MP3Tag Nat Unit) { healthyStreams with seek := fun _ => some "bad seek" }).1
      "bad seek" rfl,
    (SaveMP3_stream_failure sampleWriter sampleEncode sampleTextFrames
      (MP3Tag.zero : MP3Tag Nat Unit)
      { healthyStreams with write := fun n => if n = 1 then some "bad write" else none }).2.1
      ⟨.write, "bad write", by decide⟩⟩

/-! ## Concrete runs -/

/-- The split on the shapes of disc and track numbers that occur in the
claims. -/
theorem reSplit_examples :
    reSplit "1/2" = ["1", "2"] ∧ reSplit "7/14" = ["7", "14"] ∧ reSplit "12 of 14" = ["12", "14"] ∧
      reSplit "5" = ["5"] ∧ reSplit "1/2/3" = ["1", "2", "3"] ∧ reSplit "7/" = ["7", ""] ∧
      reSplit "x/2" = ["", "2"] ∧ reSplit "x" = ["", ""] ∧ reSplit "" = [""] := by
  decide

/-- The conversion on a number, on a value one above `maxInt` and on a signed
text. -/
theorem Atoi_examples :
    Atoi "14" = .ok 14 ∧ Atoi "-14" = .ok (-14) ∧
      Atoi "9223372036854775807" = .ok 9223372036854775807 ∧
      Atoi "9223372036854775808" = .error ⟨"Atoi", "9223372036854775808", .ErrRange⟩ ∧
      Atoi "1x" = .error ⟨"Atoi", "1x", .ErrSyntax⟩ :=
  ⟨rfl, rfl, rfl, rfl, rfl⟩

/-- On the modelled save a negative primary number is written as `-1`; the
split takes `-` for a separator and the reparse fails. -/
theorem Save_ParseMP3_negative_primary :
    compositeString (-1) 0 = "-1" ∧
      ParseMP3 readsBack sampleDecode sampleTextFrames
          (saveTag sampleEncode sampleTextFrames ((MP3Tag.zero : MP3Tag Nat Tag).SetDiscNumber (-1))) =
        .error (.numError ⟨"Atoi", "", .ErrSyntax⟩) :=
  ⟨by decide, rfl⟩

/-- The five runs of `TestWriteMP3Errors`, on a writer that reads twice, seeks
back and writes twice: a failing first seek, a failing read, a failing second
seek, a failing first write and a failing second write all make `SaveMP3`
return the error; on healthy streams it succeeds. -/
theorem SaveMP3_test_runs :
    SaveMP3 sampleWriter sampleEncode sampleTextFrames (MP3Tag.zero : MP3Tag Nat Unit)
        { healthyStreams with seek := fun _ => some "bad seek" } =
        .error (.errorString "bad seek") ∧
      SaveMP3 sampleWriter sampleEncode sampleTextFrames (MP3Tag.zero : MP3Tag Nat Unit)
        { healthyStreams with read := fun _ => some "bad read" } =
        .error (.errorString "bad read") ∧
      SaveMP3 sampleWriter sampleEncode sampleTextFrames (MP3Tag.zero : MP3Tag Nat Unit)
        { healthyStreams with seek := fun n => if n = 1 then some "bad seek" else none } =
        .error (.errorString "bad seek") ∧
      SaveMP3 sampleWriter sampleEncode sampleTextFrames (MP3Tag.zero : MP3Tag Nat Unit)
        { healthyStreams with write := fun _ => some "bad write" } =
        .error (.errorString "bad write") ∧
      SaveMP3 sampleWriter sampleEncode sampleTextFrames (MP3Tag.zero : MP3Tag Nat Unit)
        { healthyStreams with write := fun n => if n = 1 then some "bad write" else none } =
        .error (.errorString "bad write") ∧
      SaveMP3 sampleWriter sampleEncode sampleTextFrames (MP3Tag.zero : MP3Tag Nat Unit)
        healthyStreams = .ok () :=
  ⟨rfl, rfl, rfl, rfl, rfl, rfl⟩
end Mp3meta
